import Mathlib

/-!
Shallow embedding of `create_opengl_project.py`, a command-line generator that
renders a fixed set of C++/OpenGL project files from a user-supplied display
name.  Strings are modelled as `List Char` (`Str`), file-system state as an
explicit `FS` value, and `main` as the pure state-transformer `runMain`.

Modelling notes, applying to the whole file:
* Python's `str.lower` is Unicode case mapping.  For the purposes of `slugify`
  the only observable aspect of a character's lower case is whether it contains
  an ASCII character from `[a-z0-9]` (everything else is collapsed into a `_`
  separator by `re.sub(r"[^a-z0-9]+", "_", ...)`).  `pyLowerChar` therefore
  maps ASCII upper-case letters to their lower case, maps the only two Unicode
  code points whose lower case contains an ASCII letter without being ASCII
  themselves (U+0130 LATIN CAPITAL LETTER I WITH DOT ABOVE, whose lower case is
  "i" followed by U+0307, and U+212A KELVIN SIGN, whose lower case is "k"),
  and keeps every other character fixed; every remaining character's true lower
  case consists of non-ASCII characters only, which `slugify` treats exactly
  like the character itself.
* Python's parameterless `str.strip` removes the Unicode whitespace characters
  enumerated in `pyIsSpace` from both ends.
* `textwrap.dedent` (applied by every template renderer *after* f-string
  substitution) is modelled faithfully by `dedent`: whitespace-only lines are
  blanked, the longest common space/tab prefix of the remaining lines is
  computed, and that margin is removed from every line that starts with it.
* `Path.expanduser().resolve()` depends on the operating-system environment and
  is abstracted as an arbitrary function `resolve : Str → DirPath`; paths are
  component lists.  The model file system does not tie files to directory
  entries (a real file system cannot hold a file under a non-existent
  directory) and does not model non-directory entries colliding with the
  directories the script creates, nor I/O failures other than `safe_write`'s
  explicit existence check.
-/

abbrev Str := List Char

def strLit (s : String) : Str := s.data

/-! ### Python string primitives -/

/-- The characters removed by Python's parameterless `str.strip`
(Unicode whitespace). -/
def pyIsSpace (c : Char) : Bool :=
  let n := c.toNat
  decide ((9 ≤ n ∧ n ≤ 13) ∨ (28 ≤ n ∧ n ≤ 31) ∨ n = 32 ∨ n = 133 ∨ n = 160 ∨
    n = 5760 ∨ (8192 ≤ n ∧ n ≤ 8202) ∨ n = 8232 ∨ n = 8233 ∨ n = 8239 ∨
    n = 8287 ∨ n = 12288)

/-- `s.strip()` — drop Unicode whitespace from both ends. -/
def pyStrip (s : Str) : Str :=
  ((s.dropWhile pyIsSpace).reverse.dropWhile pyIsSpace).reverse

/-- One character of Python's `str.lower`; see the module docstring for why
only ASCII letters (65–90), U+0130 and U+212A are mapped. -/
def pyLowerChar (c : Char) : Str :=
  if 65 ≤ c.toNat ∧ c.toNat ≤ 90 then [Char.ofNat (c.toNat + 32)]
  else if c.toNat = 0x130 then ['i', Char.ofNat 0x307]
  else if c.toNat = 0x212a then ['k']
  else [c]

/-- `s.lower()`. -/
def pyLower (s : Str) : Str := s.flatMap pyLowerChar

/-- Membership in the regex class `[a-z0-9]` used by `slugify`. -/
def isLowerAlnum (c : Char) : Bool :=
  decide ((97 ≤ c.toNat ∧ c.toNat ≤ 122) ∨ (48 ≤ c.toNat ∧ c.toNat ≤ 57))

/-- An ASCII alphanumeric character `[a-zA-Z0-9]` (used to state claims). -/
def isAsciiAlnum (c : Char) : Bool :=
  isLowerAlnum c || decide (65 ≤ c.toNat ∧ c.toNat ≤ 90)

/-- `re.sub(r"[^a-z0-9]+", "_", s)`: replace every maximal run of characters
outside `[a-z0-9]` with a single underscore.  The accumulator records whether
we are currently inside such a run. -/
def subRunsAux : Bool → Str → Str
  | _, [] => []
  | inRun, c :: cs =>
    if isLowerAlnum c then c :: subRunsAux false cs
    else if inRun then subRunsAux true cs
    else '_' :: subRunsAux true cs

def subRuns (s : Str) : Str := subRunsAux false s

/-- `s.strip("_")`. -/
def stripUnderscores (s : Str) : Str :=
  ((s.dropWhile (fun c => c == '_')).reverse.dropWhile (fun c => c == '_')).reverse

/-- `slugify` from the script: lower-case the stripped input, collapse runs of
non-`[a-z0-9]` characters into single underscores, strip outer underscores;
`none` models the `ValueError` raised when the result is empty. -/
def slugify (name : Str) : Option Str :=
  let slug := stripUnderscores (subRuns (pyLower (pyStrip name)))
  if slug = [] then none else some slug

/-! ### `textwrap.dedent` -/

/-- Split on newline characters (a text with `n` newlines yields `n+1` lines;
the separators are not part of the lines). -/
def splitLines : Str → List Str
  | [] => [[]]
  | c :: cs =>
    if c = '\n' then [] :: splitLines cs
    else
      match splitLines cs with
      | [] => [[c]]
      | l :: ls => (c :: l) :: ls

/-- Rejoin lines with newlines (left inverse of `splitLines`). -/
def joinLines : List Str → Str
  | [] => []
  | [l] => l
  | l :: ls => l ++ '\n' :: joinLines ls

/-- The whitespace `textwrap.dedent` considers (space and tab only). -/
def isDedentWs (c : Char) : Bool := c == ' ' || c == '\t'

/-- `dedent`'s first pass: a non-empty line made only of spaces/tabs is
normalised to an empty line. -/
def normWsLine (l : Str) : Str :=
  if l.all isDedentWs ∧ l ≠ [] then [] else l

/-- A line that contributes an indent to the margin computation: it contains a
character other than space/tab. -/
def contentLine (l : Str) : Bool := !(l.all isDedentWs)

def indentOf (l : Str) : Str := l.takeWhile isDedentWs

/-- Longest common prefix, the effect of `dedent`'s margin-merging loop. -/
def lcp : Str → Str → Str
  | a :: as, b :: bs => if a = b then a :: lcp as bs else []
  | _, _ => []

/-- One iteration of CPython dedent's margin loop (`margin` starts as `None`;
whitespace-only and empty lines are skipped). -/
def marginStep (acc : Option Str) (l : Str) : Option Str :=
  if contentLine l then
    match acc with
    | none => some (indentOf l)
    | some m => some (lcp m (indentOf l))
  else acc

/-- The common margin of the (already whitespace-normalised) lines;
`[]` (no dedenting) when no line contributes an indent. -/
def dedentMargin (ls : List Str) : Str := (ls.foldl marginStep none).getD []

def dedentLine (margin l : Str) : Str :=
  if margin.isPrefixOf l then l.drop margin.length else l

/-- `textwrap.dedent`. -/
def dedent (text : Str) : Str :=
  let ls := (splitLines text).map normWsLine
  joinLines (ls.map (dedentLine (dedentMargin ls)))

/-- Every template renderer returns `textwrap.dedent(raw).strip() + "\n"`. -/
def dedentStrip (t : Str) : Str := pyStrip (dedent t) ++ strLit ("\n")

/-! ### File-system model -/

abbrev DirPath := List Str

structure FSFile where
  path : DirPath
  contents : Str
  exec : Bool
deriving DecidableEq

structure FS where
  dirs : List DirPath
  files : List FSFile
deriving DecidableEq

def FS.fileExists (fs : FS) (p : DirPath) : Bool :=
  fs.files.any (fun f => f.path == p)

def FS.dirExists (fs : FS) (p : DirPath) : Bool :=
  fs.dirs.any (fun d => d == p)

def FS.mkdir (fs : FS) (p : DirPath) : FS :=
  { fs with dirs := fs.dirs ++ [p] }

/-- `mkdir(exist_ok=True)`. -/
def FS.mkdirIfAbsent (fs : FS) (p : DirPath) : FS :=
  if fs.dirExists p then fs else fs.mkdir p

/-- `path.write_text(...)`: an existing file keeps its permission bits, a fresh
file is created without the executable bit. -/
def FS.writeFile (fs : FS) (p : DirPath) (c : Str) : FS :=
  if fs.fileExists p then
    { fs with files := fs.files.map (fun f => if f.path = p then { f with contents := c } else f) }
  else { fs with files := fs.files ++ [⟨p, c, false⟩] }

/-- `path.chmod(0o755)` — set the executable bit. -/
def FS.chmod (fs : FS) (p : DirPath) (x : Bool) : FS :=
  { fs with files := fs.files.map (fun f => if f.path = p then { f with exec := x } else f) }

/-- `safe_write` from the script: refuse to overwrite an existing file unless
`force` is set; the error carries the conflicting path. -/
def safe_write (p : DirPath) (contents : Str) (force : Bool) (fs : FS) : Except DirPath FS :=
  if fs.fileExists p && !force then Except.error p
  else Except.ok (fs.writeFile p contents)

/-! ### Template renderers

The `raw…` constants are the f-string template texts exactly as they appear in
the script (before `textwrap.dedent`), split at the substitution points. -/

def rawCMakeA : Str := strLit ("        cmake_minimum_required(VERSION 3.21)

        project(")

def rawCMakeB : Str := strLit (" VERSION 0.1.0 LANGUAGES CXX)

        set(CMAKE_CXX_STANDARD 20)
        set(CMAKE_CXX_STANDARD_REQUIRED ON)
        set(CMAKE_EXPORT_COMPILE_COMMANDS ON)

        include(FetchContent)

        if(POLICY CMP0169)
            cmake_policy(SET CMP0169 OLD)
        endif()

        set(GLFW_BUILD_DOCS OFF CACHE INTERNAL \"\")
        set(GLFW_BUILD_TESTS OFF CACHE INTERNAL \"\")
        set(GLFW_BUILD_EXAMPLES OFF CACHE INTERNAL \"\")
        set(GLFW_INSTALL OFF CACHE INTERNAL \"\")

        FetchContent_Declare(
            glfw
            GIT_REPOSITORY https://github.com/glfw/glfw.git
            GIT_TAG 3.4
        )

        FetchContent_Declare(
            glm
            GIT_REPOSITORY https://github.com/g-truc/glm.git
            GIT_TAG 1.0.1
        )
        set(GLM_TEST_ENABLE OFF CACHE INTERNAL \"\")

        FetchContent_Declare(
            glad
            GIT_REPOSITORY https://github.com/Dav1dde/glad.git
            GIT_TAG v0.1.36
            PATCH_COMMAND $\x7bCMAKE_COMMAND\x7d -DGLAD_SOURCE=<SOURCE_DIR> -P $\x7bCMAKE_CURRENT_LIST_DIR\x7d/cmake/patch_glad.cmake
        )

        set(GLAD_PROFILE \"core\" CACHE STRING \"\" FORCE)
        set(GLAD_API \"gl=4.1\" CACHE STRING \"\" FORCE)
        set(GLAD_GENERATOR \"c\" CACHE STRING \"\" FORCE)
        set(GLAD_EXTENSIONS \"\" CACHE STRING \"\" FORCE)

        FetchContent_Declare(
            imgui
            GIT_REPOSITORY https://github.com/ocornut/imgui.git
            GIT_TAG v1.90.4
        )

        FetchContent_MakeAvailable(glfw glm glad)

        FetchContent_GetProperties(imgui)
        if(NOT imgui_POPULATED)
            FetchContent_Populate(imgui)
        endif()

        set(IMGUI_SOURCES
            $\x7bimgui_SOURCE_DIR\x7d/imgui.cpp
            $\x7bimgui_SOURCE_DIR\x7d/imgui_demo.cpp
            $\x7bimgui_SOURCE_DIR\x7d/imgui_draw.cpp
            $\x7bimgui_SOURCE_DIR\x7d/imgui_tables.cpp
            $\x7bimgui_SOURCE_DIR\x7d/imgui_widgets.cpp
            $\x7bimgui_SOURCE_DIR\x7d/backends/imgui_impl_glfw.cpp
            $\x7bimgui_SOURCE_DIR\x7d/backends/imgui_impl_opengl3.cpp
        )

        add_library(imgui_backend STATIC $\x7bIMGUI_SOURCES\x7d)
        target_include_directories(imgui_backend PUBLIC
            $\x7bimgui_SOURCE_DIR\x7d
            $\x7bimgui_SOURCE_DIR\x7d/backends
        )
        target_link_libraries(imgui_backend PUBLIC glfw glad)
        target_compile_definitions(imgui_backend PUBLIC IMGUI_DISABLE_OBSOLETE_FUNCTIONS)

        add_executable($\x7bPROJECT_NAME\x7d
            src/main.cpp
            src/Application.cpp
        )

        target_include_directories($\x7bPROJECT_NAME\x7d PRIVATE src)
        target_link_libraries($\x7bPROJECT_NAME\x7d PRIVATE glfw glad imgui_backend glm::glm)
        target_compile_definitions($\x7bPROJECT_NAME\x7d PRIVATE IMGUI_IMPL_OPENGL_LOADER_GLAD)

        if (APPLE)
            target_link_libraries($\x7bPROJECT_NAME\x7d PRIVATE \"-framework Cocoa\" \"-framework IOKit\" \"-framework CoreVideo\")
        endif()
        ")

def rawMainCppA : Str := strLit ("        #include \"Application.hpp\"

        #include <cstdio>
        #include <cstdlib>
        #include <exception>

        int main() \x7b
            try \x7b
                Application app(\"")

def rawMainCppB : Str := strLit ("\", 1280, 720);
                app.run();
            \x7d catch (const std::exception& e) \x7b
                std::fprintf(stderr, \"Fatal error: %s\\n\", e.what());
                return EXIT_FAILURE;
            \x7d
            return EXIT_SUCCESS;
        \x7d
        ")

def rawAppHpp : Str := strLit ("        #pragma once

        #include <string>

        struct GLFWwindow;

        class Application \x7b
        public:
            Application(std::string title, int width, int height);
            ~Application();

            Application(const Application&) = delete;
            Application& operator=(const Application&) = delete;

            void run();

        private:
            void init();
            void shutdown();

            std::string title_;
            int width_;
            int height_;
            GLFWwindow* window_\x7bnullptr\x7d;
            bool glfw_initialized_\x7bfalse\x7d;
            bool imgui_initialized_\x7bfalse\x7d;
        \x7d;
        ")

def rawAppCpp : Str := strLit ("        #include \"Application.hpp\"

        #include <stdexcept>
        #include <utility>

        #ifndef GLFW_INCLUDE_NONE
        #define GLFW_INCLUDE_NONE
        #endif
        #include <GLFW/glfw3.h>
        #include <glad/glad.h>

        #include <imgui.h>
        #include <imgui_impl_glfw.h>
        #include <imgui_impl_opengl3.h>

        #include <glm/glm.hpp>
        #include <glm/gtc/type_ptr.hpp>

        #include <cstdio>

        namespace \x7b
        void glfw_error_callback(int error, const char* description) \x7b
            std::fprintf(stderr, \"GLFW error (%d): %s\\n\", error, description ? description : \"no message\");
        \x7d
        \x7d // namespace

        Application::Application(std::string title, int width, int height)
            : title_(std::move(title)), width_(width), height_(height) \x7b
            init();
        \x7d

        Application::~Application() \x7b
            shutdown();
        \x7d

        void Application::init() \x7b
            glfwSetErrorCallback(glfw_error_callback);
            if (!glfwInit()) \x7b
                throw std::runtime_error(\"Failed to initialize GLFW.\");
            \x7d
            glfw_initialized_ = true;

            glfwWindowHint(GLFW_CONTEXT_VERSION_MAJOR, 4);
            glfwWindowHint(GLFW_CONTEXT_VERSION_MINOR, 1);
            glfwWindowHint(GLFW_OPENGL_PROFILE, GLFW_OPENGL_CORE_PROFILE);
        #if defined(__APPLE__)
            glfwWindowHint(GLFW_OPENGL_FORWARD_COMPAT, GL_TRUE);
        #endif

            window_ = glfwCreateWindow(width_, height_, title_.c_str(), nullptr, nullptr);
            if (!window_) \x7b
                throw std::runtime_error(\"Failed to create GLFW window.\");
            \x7d

            glfwMakeContextCurrent(window_);
            glfwSwapInterval(1);

            if (!gladLoadGLLoader(reinterpret_cast<GLADloadproc>(glfwGetProcAddress))) \x7b
                throw std::runtime_error(\"Failed to initialize GLAD.\");
            \x7d

            glfwSetFramebufferSizeCallback(
                window_, [](GLFWwindow*, int width, int height) \x7b glViewport(0, 0, width, height); \x7d);

            int framebuffer_width = 0;
            int framebuffer_height = 0;
            glfwGetFramebufferSize(window_, &framebuffer_width, &framebuffer_height);
            glViewport(0, 0, framebuffer_width, framebuffer_height);

            IMGUI_CHECKVERSION();
            ImGui::CreateContext();
            ImGuiIO& io = ImGui::GetIO();
            io.ConfigFlags |= ImGuiConfigFlags_NavEnableKeyboard;
            ImGui::StyleColorsDark();

            if (!ImGui_ImplGlfw_InitForOpenGL(window_, true)) \x7b
                throw std::runtime_error(\"Failed to initialize Dear ImGui GLFW backend.\");
            \x7d
            if (!ImGui_ImplOpenGL3_Init(\"#version 410\")) \x7b
                throw std::runtime_error(\"Failed to initialize Dear ImGui OpenGL backend.\");
            \x7d

            imgui_initialized_ = true;
        \x7d

        void Application::run() \x7b
            if (!window_) \x7b
                throw std::runtime_error(\"Application window is not available.\");
            \x7d

            glm::vec3 clear_color\x7b0.10f, 0.13f, 0.17f\x7d;

            while (!glfwWindowShouldClose(window_)) \x7b
                glfwPollEvents();

                ImGui_ImplOpenGL3_NewFrame();
                ImGui_ImplGlfw_NewFrame();
                ImGui::NewFrame();

                ImGui::Begin(\"Hello, ImGui\");
                ImGui::Text(\"Welcome to %s\", title_.c_str());
                ImGui::ColorEdit3(\"Clear Color\", glm::value_ptr(clear_color));
                ImGui::Text(\"Renderer: %s\", reinterpret_cast<const char*>(glGetString(GL_RENDERER)));
                ImGui::Text(\"OpenGL: %s\", reinterpret_cast<const char*>(glGetString(GL_VERSION)));
                ImGui::End();

                ImGui::Render();

                glClearColor(clear_color.r, clear_color.g, clear_color.b, 1.0f);
                glClear(GL_COLOR_BUFFER_BIT);

                ImGui_ImplOpenGL3_RenderDrawData(ImGui::GetDrawData());

                glfwSwapBuffers(window_);
            \x7d
        \x7d

        void Application::shutdown() \x7b
            if (imgui_initialized_) \x7b
                ImGui_ImplOpenGL3_Shutdown();
                ImGui_ImplGlfw_Shutdown();
                ImGui::DestroyContext();
                imgui_initialized_ = false;
            \x7d else if (ImGui::GetCurrentContext()) \x7b
                ImGui::DestroyContext();
            \x7d

            if (window_) \x7b
                glfwDestroyWindow(window_);
                window_ = nullptr;
            \x7d

            if (glfw_initialized_) \x7b
                glfwTerminate();
                glfw_initialized_ = false;
            \x7d
        \x7d
        ")

def rawReadmeA : Str := strLit ("        # ")

def rawReadmeB : Str := strLit ("

        Generated OpenGL starter project using GLFW, GLAD, GLM, and Dear ImGui.

        ## Build

        \x60\x60\x60bash
        cmake -S . -B build
        cmake --build build
        \x60\x60\x60

        Or use the provided helper script:

        \x60\x60\x60bash
        ./build.sh [Debug|Release|RelWithDebInfo|MinSizeRel] [-r|--run] [-fmt|--format]
        \x60\x60\x60

        Flags (all optional):

        - \x60Debug|Release|RelWithDebInfo|MinSizeRel\x60 — choose the CMake build type (default: \x60Debug\x60)
        - \x60-r\x60, \x60--run\x60 — run the built binary after a successful build
        - \x60-fmt\x60, \x60--format\x60 — run \x60./scripts/format-all.sh\x60 before configuring (requires that script)

        ## Run

        \x60\x60\x60bash
        ./build/")

def rawReadmeC : Str := strLit ("
        \x60\x60\x60
        ")

def rawBuildShA : Str := strLit ("        #!/usr/bin/env bash

        set -Eeuo pipefail

        trap \x27echo \"✖ error: $\x7bBASH_SOURCE[0]\x7d:$LINENO: $\x7bBASH_COMMAND\x7d\" >&2\x27 ERR

        BUILD_DIR=\"$\x7bBUILD_DIR:-build\x7d\"
        RUN_AFTER_BUILD=0
        TYPE=\"Debug\"
        APP_PATH=\"$\x7bAPP_PATH:-bin/$\x7bTYPE\x7d/")

def rawBuildShB : Str := strLit ("\x7d\"
        FORMAT_AFTER_BUILD=0

        SCRIPT_DIR=\"$(cd \"$(dirname \"$\x7bBASH_SOURCE[0]\x7d\")\" >/dev/null 2>&1 && pwd)\"

        cd \"$SCRIPT_DIR\"

        usage() \x7b
          cat <<USAGE
        Usage: $\x7bBASH_SOURCE[0]\x7d [Debug|Release|RelWithDebInfo|MinSizeRel] [-r|--run]

        Arguments are optional and order-independent:
          Debug|Release|RelWithDebInfo|MinSizeRel  Build type (default: Debug)
          -r, --run                                Run the application after build
          -fmt, --format                           Run ./scripts/format-all.sh before configuring
          -h, --help                               Show this help message
        USAGE
        \x7d

        while [[ $# -gt 0 ]]; do
          case \"$1\" in
          Debug | Release | RelWithDebInfo | MinSizeRel)
            TYPE=\"$1\"
            ;;
          -r | --run)
            RUN_AFTER_BUILD=1
            ;;
          -fmt | --format)
            FORMAT_AFTER_BUILD=1
            ;;
          -h | --help)
            usage
            exit 0
            ;;
          *)
            echo \"Unknown option: $1\" >&2
            usage
            exit 1
            ;;
          esac
          shift
        done

        APP_PATH=\"$\x7bAPP_PATH:-bin/$\x7bTYPE\x7d/")

def rawBuildShC : Str := strLit ("\x7d\"
        SHOULD_RUN=$([[ $RUN_AFTER_BUILD -eq 1 ]] && echo \"run\" || echo \"norun\")

        resolve_executable() \x7b
          local slug=\"")

def rawBuildShD : Str := strLit ("\"
          local base=\"$BUILD_DIR\"
          local declared=\"$APP_PATH\"
          local candidates=()

          if [[ -n \"$declared\" ]]; then
            if [[ \"$declared\" = /* ]]; then
              candidates+=(\"$declared\")
            else
              candidates+=(\"$base/$declared\")
              candidates+=(\"$declared\")
            fi
          fi

          candidates+=(\"$base/bin/$\x7bTYPE\x7d/$slug\" \"$base/$slug\" \"$base/bin/$slug\" \"$base/$\x7bTYPE\x7d/$slug\")

          for candidate in \"$\x7bcandidates[@]\x7d\"; do
            [[ -n \"$candidate\" ]] || continue
            if [[ -x \"$candidate\" ]]; then
              echo \"$candidate\"
              return 0
            fi
          done
          return 1
        \x7d

        source_oneapi_env() \x7b
          # Candidate roots (user first), honor ONEAPI_ROOT if set
          local roots=()
          [[ -n \"$\x7bONEAPI_ROOT:-\x7d\" ]] && roots+=(\"$ONEAPI_ROOT\")
          roots+=(\"$HOME/intel/oneapi\" \"/opt/intel/oneapi\")
          local r path
          local candidates=()
          shopt -s nullglob
          for r in \"$\x7broots[@]\x7d\"; do
            candidates+=(\"$r/oneapi-vars.sh\" \"$r/setvars.sh\")
            candidates+=(\"$r\"/*/oneapi-vars.sh \"$r\"/*/setvars.sh)
          done
          local _saved_opts
          _saved_opts=\"$(set +o)\"
          local _saved_errtrap
          _saved_errtrap=\"$(trap -p ERR || true)\"
          trap - ERR

          for path in \"$\x7bcandidates[@]\x7d\"; do
            [[ -r \"$path\" ]] || continue
            set +e +u
            set +o pipefail
            source \"$path\" intel64 >/dev/null 2>&1 || source \"$path\" >/dev/null 2>&1
            local rc=$?
            eval \"$_saved_opts\"
            [[ -n \"$_saved_errtrap\" ]] && eval \"$_saved_errtrap\"

            if ((rc == 0)); then
              echo \"✓ oneAPI environment sourced: $path\"
              if [[ -n \"$\x7bIPPROOT:-\x7d\" || -n \"$\x7bONEAPI_ROOT:-\x7d\" ]]; then
                return 0
              fi
              _saved_errtrap=\"$(trap -p ERR || true)\"
              trap - ERR
            else
              _saved_errtrap=\"$(trap -p ERR || true)\"
              trap - ERR
            fi
          done

          # Final restore (nothing found)
          eval \"$_saved_opts\"
          [[ -n \"$_saved_errtrap\" ]] && eval \"$_saved_errtrap\"
          echo \"⚠ Could not find a working oneAPI env script under $ONEAPI_ROOT, $HOME/intel/oneapi, or /opt/intel/oneapi.\" >&2
          echo \"   (Unified layout: <root>/<version>/oneapi-vars.sh; component layout: <root>/setvars.sh)\" >&2
          return 1
        \x7d

        if [[ $FORMAT_AFTER_BUILD -eq 1 ]]; then
          echo \"Formatting code before build...\"
          ./scripts/format-all.sh
        fi

        cmake -B \"$BUILD_DIR\" \\
          -DCMAKE_BUILD_TYPE=\"$TYPE\" \\
          -DCMAKE_EXPORT_COMPILE_COMMANDS=ON
        cmake --build \"$BUILD_DIR\" --parallel

        source_oneapi_env

        echo \"Build completed.\"

        case \"$SHOULD_RUN\" in
        run)
          if executable_path=\"$(resolve_executable)\"; then
            echo \"Running application: $executable_path\"
            \"$executable_path\"
          else
            echo \"Build finished, but executable was not found (checked $APP_PATH and common defaults).\" >&2
            exit 1
          fi
          ;;
        norun)
          echo \"Done.\"
          ;;
        *)
          echo \"Build finished — unknown run command: $SHOULD_RUN\"
          exit 2
          ;;
        esac
        ")

def rawPatchGlad : Str := strLit ("        if(NOT DEFINED GLAD_SOURCE)
          message(FATAL_ERROR \"GLAD_SOURCE not provided to patch_glad.cmake\")
        endif()

        set(_glad_cmake \"$\x7bGLAD_SOURCE\x7d/CMakeLists.txt\")
        if(NOT EXISTS \"$\x7b_glad_cmake\x7d\")
          message(FATAL_ERROR \"Cannot find glad CMakeLists.txt at $\x7b_glad_cmake\x7d\")
        endif()

        file(READ \"$\x7b_glad_cmake\x7d\" _glad_contents)
        string(REPLACE \"cmake_minimum_required(VERSION 3.0)\" \"cmake_minimum_required(VERSION 3.21)\" _glad_contents \"$\x7b_glad_contents\x7d\")
        file(WRITE \"$\x7b_glad_cmake\x7d\" \"$\x7b_glad_contents\x7d\")
        ")

def rawGitignore : Str := strLit ("        # Build artifacts
        /build/
        /cmake-build-*/
        /CMakeFiles/
        /Testing/
        CMakeCache.txt
        CMakeScripts/
        Makefile
        cmake_install.cmake
        install_manifest.txt
        compile_commands.json
        build.ninja
        *.ninja
        *.o
        *.obj
        *.lo
        *.la
        *.a
        *.so
        *.dylib
        *.dll
        *.exe
        *.pdb

        # External deps fetched by CMake
        /_deps/

        # IDE / editor metadata
        /.idea/
        /.vscode/
        *.code-workspace

        # Misc
        .DS_Store
        Thumbs.db
        ")

def rawIgnoreFile : Str := strLit ("        # Ignore bulky build output when searching (used by ripgrep / Telescope)
        build/
        cmake-build-*/
        _deps/
        ")

def build_cmakelists (project_name : Str) : Str :=
  dedentStrip (rawCMakeA ++ project_name ++ rawCMakeB)

def build_main_cpp (display_name : Str) : Str :=
  dedentStrip (rawMainCppA ++ display_name ++ rawMainCppB)

def build_application_hpp : Str := dedentStrip rawAppHpp

def build_application_cpp : Str := dedentStrip rawAppCpp

def build_readme (display_name slug : Str) : Str :=
  dedentStrip (rawReadmeA ++ display_name ++ rawReadmeB ++ slug ++ rawReadmeC)

def build_build_script (slug : Str) : Str :=
  dedentStrip (rawBuildShA ++ slug ++ rawBuildShB ++ slug ++ rawBuildShC ++ slug ++ rawBuildShD)

def build_glad_patch_script : Str := dedentStrip rawPatchGlad

def build_gitignore : Str := dedentStrip rawGitignore

def build_ignore_file : Str := dedentStrip rawIgnoreFile

/-! ### The `main` procedure -/

structure Args where
  name : Option Str
  location : Option Str
  force : Bool

inductive RunErr where
  | nameRequired
  | baseDirMissing (p : DirPath)
  | invalidName
  | dirConflict (p : DirPath)
  | writeFailed (p : DirPath)
deriving DecidableEq

/-- `args.name or input("Project name: ").strip()` — only the interactive
answer is stripped; a non-empty positional argument is used verbatim. -/
def effectiveName (args : Args) (promptName : Str) : Str :=
  match args.name with
  | some s => if s = [] then pyStrip promptName else s
  | none => pyStrip promptName

def promptedBase (promptBase : Str) : Str :=
  if pyStrip promptBase = [] then strLit (".") else pyStrip promptBase

def effectiveBase (args : Args) (promptBase : Str) : Str :=
  match args.location with
  | some s => if s = [] then promptedBase promptBase else s
  | none => promptedBase promptBase

structure WriteItem where
  path : DirPath
  contents : Str
  mkExec : Bool

/-- The nine `safe_write` calls of `main`, in source order; `mkExec` marks the
`build_sh_path.chmod(0o755)` performed right after `build.sh` is written. -/
def renderItems (root : DirPath) (displayName slug : Str) : List WriteItem :=
  [ ⟨root ++ [strLit ("CMakeLists.txt")], build_cmakelists slug, false⟩,
    ⟨root ++ [strLit ("src"), strLit ("main.cpp")], build_main_cpp displayName, false⟩,
    ⟨root ++ [strLit ("src"), strLit ("Application.hpp")], build_application_hpp, false⟩,
    ⟨root ++ [strLit ("src"), strLit ("Application.cpp")], build_application_cpp, false⟩,
    ⟨root ++ [strLit ("README.md")], build_readme displayName slug, false⟩,
    ⟨root ++ [strLit ("build.sh")], build_build_script slug, true⟩,
    ⟨root ++ [strLit ("cmake"), strLit ("patch_glad.cmake")], build_glad_patch_script, false⟩,
    ⟨root ++ [strLit (".gitignore")], build_gitignore, false⟩,
    ⟨root ++ [strLit (".ignore")], build_ignore_file, false⟩ ]

/-- The write sequence of `main`: stop at the first failing `safe_write`,
leaving the files already written in place (no rollback). -/
def runWrites (force : Bool) : List WriteItem → FS → Option DirPath × FS
  | [], fs => (none, fs)
  | it :: rest, fs =>
    match safe_write it.path it.contents force fs with
    | Except.error p => (some p, fs)
    | Except.ok fs1 =>
      runWrites force rest (if it.mkExec then fs1.chmod it.path true else fs1)

/-- `main`, from argument resolution to the success report.  `resolve` models
`Path(...).expanduser().resolve()`; `promptName`/`promptBase` are the answers
the interactive prompts would return.  The first component is `none` on
success and the fatal error otherwise; the second is the resulting file
system. -/
def runMain (resolve : Str → DirPath) (args : Args) (promptName promptBase : Str)
    (fs : FS) : Option RunErr × FS :=
  let displayName := effectiveName args promptName
  if displayName = [] then (some RunErr.nameRequired, fs)
  else
    let base := resolve (effectiveBase args promptBase)
    if !(fs.dirExists base) then (some (RunErr.baseDirMissing base), fs)
    else
      match slugify displayName with
      | none => (some RunErr.invalidName, fs)
      | some slug =>
        let root := base ++ [slug]
        if fs.dirExists root && !args.force then (some (RunErr.dirConflict root), fs)
        else
          let fs1 := if fs.dirExists root then fs else fs.mkdir root
          let fs2 := (fs1.mkdirIfAbsent (root ++ [strLit ("src")])).mkdirIfAbsent
            (root ++ [strLit ("cmake")])
          match runWrites args.force (renderItems root displayName slug) fs2 with
          | (some p, fs3) => (some (RunErr.writeFailed p), fs3)
          | (none, fs3) => (none, fs3)

/-- The files below a project root. -/
def filesUnder (root : DirPath) (fs : FS) : List FSFile :=
  fs.files.filter (fun f => root.isPrefixOf f.path)

/-! ### Spliced normal forms of the two name-carrying templates

For inputs without newline characters, `build_main_cpp` and `build_cmakelists`
are proved below to be literal splices between the following constants (the
dedented template text before and after the substitution point). -/

def mainCppPrefix : Str := strLit ("#include \"Application.hpp\"

#include <cstdio>
#include <cstdlib>
#include <exception>

int main() \x7b
    try \x7b
        Application app(\"")

def mainCppSuffix : Str := strLit ("\", 1280, 720);
        app.run();
    \x7d catch (const std::exception& e) \x7b
        std::fprintf(stderr, \"Fatal error: %s\\n\", e.what());
        return EXIT_FAILURE;
    \x7d
    return EXIT_SUCCESS;
\x7d
")

def cmakePrefix : Str := strLit ("cmake_minimum_required(VERSION 3.21)

project(")

def cmakeSuffix : Str := strLit (" VERSION 0.1.0 LANGUAGES CXX)

set(CMAKE_CXX_STANDARD 20)
set(CMAKE_CXX_STANDARD_REQUIRED ON)
set(CMAKE_EXPORT_COMPILE_COMMANDS ON)

include(FetchContent)

if(POLICY CMP0169)
    cmake_policy(SET CMP0169 OLD)
endif()

set(GLFW_BUILD_DOCS OFF CACHE INTERNAL \"\")
set(GLFW_BUILD_TESTS OFF CACHE INTERNAL \"\")
set(GLFW_BUILD_EXAMPLES OFF CACHE INTERNAL \"\")
set(GLFW_INSTALL OFF CACHE INTERNAL \"\")

FetchContent_Declare(
    glfw
    GIT_REPOSITORY https://github.com/glfw/glfw.git
    GIT_TAG 3.4
)

FetchContent_Declare(
    glm
    GIT_REPOSITORY https://github.com/g-truc/glm.git
    GIT_TAG 1.0.1
)
set(GLM_TEST_ENABLE OFF CACHE INTERNAL \"\")

FetchContent_Declare(
    glad
    GIT_REPOSITORY https://github.com/Dav1dde/glad.git
    GIT_TAG v0.1.36
    PATCH_COMMAND $\x7bCMAKE_COMMAND\x7d -DGLAD_SOURCE=<SOURCE_DIR> -P $\x7bCMAKE_CURRENT_LIST_DIR\x7d/cmake/patch_glad.cmake
)

set(GLAD_PROFILE \"core\" CACHE STRING \"\" FORCE)
set(GLAD_API \"gl=4.1\" CACHE STRING \"\" FORCE)
set(GLAD_GENERATOR \"c\" CACHE STRING \"\" FORCE)
set(GLAD_EXTENSIONS \"\" CACHE STRING \"\" FORCE)

FetchContent_Declare(
    imgui
    GIT_REPOSITORY https://github.com/ocornut/imgui.git
    GIT_TAG v1.90.4
)

FetchContent_MakeAvailable(glfw glm glad)

FetchContent_GetProperties(imgui)
if(NOT imgui_POPULATED)
    FetchContent_Populate(imgui)
endif()

set(IMGUI_SOURCES
    $\x7bimgui_SOURCE_DIR\x7d/imgui.cpp
    $\x7bimgui_SOURCE_DIR\x7d/imgui_demo.cpp
    $\x7bimgui_SOURCE_DIR\x7d/imgui_draw.cpp
    $\x7bimgui_SOURCE_DIR\x7d/imgui_tables.cpp
    $\x7bimgui_SOURCE_DIR\x7d/imgui_widgets.cpp
    $\x7bimgui_SOURCE_DIR\x7d/backends/imgui_impl_glfw.cpp
    $\x7bimgui_SOURCE_DIR\x7d/backends/imgui_impl_opengl3.cpp
)

add_library(imgui_backend STATIC $\x7bIMGUI_SOURCES\x7d)
target_include_directories(imgui_backend PUBLIC
    $\x7bimgui_SOURCE_DIR\x7d
    $\x7bimgui_SOURCE_DIR\x7d/backends
)
target_link_libraries(imgui_backend PUBLIC glfw glad)
target_compile_definitions(imgui_backend PUBLIC IMGUI_DISABLE_OBSOLETE_FUNCTIONS)

add_executable($\x7bPROJECT_NAME\x7d
    src/main.cpp
    src/Application.cpp
)

target_include_directories($\x7bPROJECT_NAME\x7d PRIVATE src)
target_link_libraries($\x7bPROJECT_NAME\x7d PRIVATE glfw glad imgui_backend glm::glm)
target_compile_definitions($\x7bPROJECT_NAME\x7d PRIVATE IMGUI_IMPL_OPENGL_LOADER_GLAD)

if (APPLE)
    target_link_libraries($\x7bPROJECT_NAME\x7d PRIVATE \"-framework Cocoa\" \"-framework IOKit\" \"-framework CoreVideo\")
endif()
")

/-! ### Tail-recursive scanners for substring facts -/

def prefixB : Str → Str → Bool
  | [], _ => true
  | _ :: _, [] => false
  | a :: as, b :: bs => a == b && prefixB as bs

def infixB (pat : Str) : Str → Bool
  | [] => prefixB pat []
  | c :: rest => prefixB pat (c :: rest) || infixB pat rest

theorem prefixB_iff : ∀ a b : Str, prefixB a b = true ↔ List.IsPrefix a b
  | [], b => by simp [prefixB]
  | _ :: _, [] => by simp [prefixB]
  | a :: as, b :: bs => by
    simp [prefixB, List.cons_prefix_cons, prefixB_iff as bs]

theorem infixB_iff (pat : Str) : ∀ t : Str, infixB pat t = true ↔ List.IsInfix pat t
  | [] => by simp [infixB, prefixB_iff]
  | c :: rest => by
    simp [infixB, prefixB_iff, infixB_iff pat rest, List.infix_cons_iff]

/-! ### Well-formedness of `slugify` -/

theorem char_toNat_ofNat {n : Nat} (h : n < 55296) : (Char.ofNat n).toNat = n := by
  have hv : n.isValidChar := Or.inl h
  rw [Char.ofNat, dif_pos hv]
  rfl

theorem mem_dropWhile_of_mem {p : Char → Bool} {u : Str} {c : Char}
    (h : c ∈ u) (hc : p c = false) : c ∈ u.dropWhile p := by
  induction u with
  | nil => cases h
  | cons a u ih =>
    rw [List.dropWhile_cons]
    by_cases hp : p a = true
    · rw [if_pos hp]
      rcases List.mem_cons.mp h with rfl | h2
      · rw [hc] at hp; cases hp
      · exact ih h2
    · rw [if_neg hp]
      exact h

theorem head?_dropWhile {p : Char → Bool} : ∀ (u : Str) {c : Char},
    (u.dropWhile p).head? = some c → p c = false := by
  intro u
  induction u with
  | nil => intro c h; cases h
  | cons a u ih =>
    intro c h
    rw [List.dropWhile_cons] at h
    by_cases hp : p a = true
    · rw [if_pos hp] at h; exact ih h
    · rw [if_neg hp] at h
      rw [List.head?_cons] at h
      injection h with h
      subst h
      exact Bool.eq_false_iff.mpr hp

theorem dropWhile_eq_self_of_head {p : Char → Bool} {u : Str}
    (h : ∀ c, u.head? = some c → p c = false) : u.dropWhile p = u := by
  cases u with
  | nil => rfl
  | cons a u => rw [List.dropWhile_cons, if_neg]; simp [h a rfl]

theorem getLast?_of_suffix {u v : Str} (h : List.IsSuffix v u) (hv : v ≠ []) :
    v.getLast? = u.getLast? := by
  obtain ⟨t, rfl⟩ := h
  rw [List.getLast?_append]
  cases hv2 : v.getLast? with
  | none => exact absurd (List.getLast?_eq_none_iff.mp hv2) hv
  | some x => rfl

theorem stripUnderscores_isInfix (u : Str) : List.IsInfix (stripUnderscores u) u := by
  obtain ⟨t1, ht1⟩ := List.dropWhile_suffix (l := u) (fun c => c == '_')
  obtain ⟨t2, ht2⟩ :=
    List.dropWhile_suffix (l := (u.dropWhile (fun c => c == '_')).reverse) (fun c => c == '_')
  refine ⟨t1, t2.reverse, ?_⟩
  have h3 := congrArg List.reverse ht2
  rw [List.reverse_append, List.reverse_reverse] at h3
  calc t1 ++ stripUnderscores u ++ t2.reverse
      = t1 ++ (stripUnderscores u ++ t2.reverse) := by rw [List.append_assoc]
    _ = t1 ++ u.dropWhile (fun c => c == '_') := by rw [stripUnderscores, h3]
    _ = u := ht1

theorem mem_of_mem_stripUnderscores {u : Str} {c : Char}
    (h : c ∈ stripUnderscores u) : c ∈ u :=
  (stripUnderscores_isInfix u).sublist.subset h

theorem mem_stripUnderscores {u : Str} {c : Char} (h : c ∈ u) (hc : (c == '_') = false) :
    c ∈ stripUnderscores u :=
  List.mem_reverse.mpr
    (mem_dropWhile_of_mem (List.mem_reverse.mpr (mem_dropWhile_of_mem h hc)) hc)

theorem mem_subRunsAux : ∀ (b : Bool) (t : Str) (c : Char), c ∈ subRunsAux b t →
    c = '_' ∨ (c ∈ t ∧ isLowerAlnum c = true) := by
  intro b t
  induction t generalizing b with
  | nil => intro c h; cases h
  | cons a t ih =>
    intro c h
    simp only [subRunsAux] at h
    by_cases ha : isLowerAlnum a = true
    · rw [if_pos ha] at h
      rcases List.mem_cons.mp h with rfl | h2
      · exact Or.inr ⟨List.mem_cons.mpr (Or.inl rfl), ha⟩
      · rcases ih false c h2 with h3 | ⟨h4, h5⟩
        · exact Or.inl h3
        · exact Or.inr ⟨List.mem_cons_of_mem a h4, h5⟩
    · rw [if_neg ha] at h
      cases b with
      | true =>
        rw [if_pos rfl] at h
        rcases ih true c h with h3 | ⟨h4, h5⟩
        · exact Or.inl h3
        · exact Or.inr ⟨List.mem_cons_of_mem a h4, h5⟩
      | false =>
        rw [if_neg (Bool.false_ne_true)] at h
        rcases List.mem_cons.mp h with rfl | h2
        · exact Or.inl rfl
        · rcases ih true c h2 with h3 | ⟨h4, h5⟩
          · exact Or.inl h3
          · exact Or.inr ⟨List.mem_cons_of_mem a h4, h5⟩

theorem alnum_mem_subRunsAux {c : Char} (hc : isLowerAlnum c = true) :
    ∀ (b : Bool) (t : Str), c ∈ subRunsAux b t ↔ c ∈ t := by
  intro b t
  induction t generalizing b with
  | nil => simp [subRunsAux]
  | cons a t ih =>
    simp only [subRunsAux]
    by_cases ha : isLowerAlnum a = true
    · rw [if_pos ha]
      simp [ih false]
    · rw [if_neg ha]
      have hne : c ≠ a := by
        rintro rfl; exact ha hc
      cases b with
      | true =>
        rw [if_pos rfl, ih true]
        simp [hne]
      | false =>
        rw [if_neg (Bool.false_ne_true)]
        have hu : c ≠ '_' := by
          rintro rfl; revert hc; decide
        simp [ih true, hne, hu]

theorem subRunsAux_true_head : ∀ (t : Str) (c : Char),
    (subRunsAux true t).head? = some c → isLowerAlnum c = true := by
  intro t
  induction t with
  | nil => intro c h; cases h
  | cons a t ih =>
    intro c h
    simp only [subRunsAux] at h
    by_cases ha : isLowerAlnum a = true
    · rw [if_pos ha, List.head?_cons] at h
      injection h with h
      subst h; exact ha
    · rw [if_neg ha, if_true] at h
      exact ih c h

/-- Adjacent characters admissible in a slug: not both separators. -/
def sepOk (a b : Char) : Prop := ¬(a = '_' ∧ b = '_')

theorem subRunsAux_chain : ∀ (b : Bool) (t : Str), List.Chain' sepOk (subRunsAux b t) := by
  intro b t
  induction t generalizing b with
  | nil => simp [subRunsAux]
  | cons a t ih =>
    simp only [subRunsAux]
    by_cases ha : isLowerAlnum a = true
    · rw [if_pos ha]
      rw [List.chain'_cons']
      refine ⟨?_, ih false⟩
      intro y _
      intro hcon
      rw [hcon.1] at ha
      revert ha; decide
    · rw [if_neg ha]
      cases b with
      | true => rw [if_pos rfl]; exact ih true
      | false =>
        rw [if_neg (Bool.false_ne_true)]
        rw [List.chain'_cons']
        refine ⟨?_, ih true⟩
        intro y hy
        intro hcon
        have := subRunsAux_true_head t y hy
        rw [hcon.2] at this
        revert this; decide

/-- A chain condition passes to any contiguous sublist. -/
theorem chain'_of_isInfix {R : Char → Char → Prop} {u v : Str}
    (h : List.Chain' R v) (hin : List.IsInfix u v) : List.Chain' R u := by
  obtain ⟨s, t, rfl⟩ := hin
  exact List.Chain'.right_of_append (List.Chain'.left_of_append h)

theorem chain'_no_double_sep {u : Str} (h : List.Chain' sepOk u) :
    ¬ List.IsInfix ['_', '_'] u := by
  intro hinf
  have h2 : List.Chain' sepOk ['_', '_'] := chain'_of_isInfix h hinf
  exact (List.chain'_cons.mp h2).1 ⟨rfl, rfl⟩

theorem slugify_eq_some {name s : Str} (h : slugify name = some s) :
    s = stripUnderscores (subRuns (pyLower (pyStrip name))) ∧ s ≠ [] := by
  simp only [slugify] at h
  by_cases h0 : stripUnderscores (subRuns (pyLower (pyStrip name))) = []
  · rw [if_pos h0] at h; cases h
  · rw [if_neg h0] at h
    injection h with h
    exact ⟨h.symm, h ▸ h0⟩

theorem stripUnderscores_head {u : Str} {c : Char}
    (h : (stripUnderscores u).head? = some c) : c ≠ '_' := by
  rw [stripUnderscores, List.head?_reverse] at h
  have hne : (u.dropWhile (fun c => c == '_')).reverse.dropWhile (fun c => c == '_') ≠ [] := by
    intro h0; rw [h0] at h; cases h
  have h2 := getLast?_of_suffix (List.dropWhile_suffix (fun c => c == '_')) hne
  rw [h2, List.getLast?_reverse] at h
  exact beq_eq_false_iff_ne.mp (head?_dropWhile (p := fun c => c == '_') u h)

theorem stripUnderscores_getLast {u : Str} {c : Char}
    (h : (stripUnderscores u).getLast? = some c) : c ≠ '_' := by
  rw [stripUnderscores, List.getLast?_reverse] at h
  exact beq_eq_false_iff_ne.mp (head?_dropWhile (p := fun c => c == '_') _ h)

theorem slugify_wf {name s : Str} (h : slugify name = some s) :
    s ≠ [] ∧ (∀ c ∈ s, isLowerAlnum c = true ∨ c = '_') ∧
      (∀ c, s.head? = some c → c ≠ '_') ∧ (∀ c, s.getLast? = some c → c ≠ '_') ∧
      ¬ List.IsInfix ['_', '_'] s := by
  obtain ⟨hs, hne⟩ := slugify_eq_some h
  subst hs
  refine ⟨hne, ?_, ?_, ?_, ?_⟩
  · intro c hc
    rcases mem_subRunsAux false _ c (mem_of_mem_stripUnderscores hc) with h1 | ⟨_, h2⟩
    · exact Or.inr h1
    · exact Or.inl h2
  · intro c hc; exact stripUnderscores_head hc
  · intro c hc; exact stripUnderscores_getLast hc
  · exact chain'_no_double_sep (chain'_of_isInfix (subRunsAux_chain false _) (stripUnderscores_isInfix _))

theorem slugify_of_alnum {name : Str}
    (h : ∃ c, c ∈ pyLower (pyStrip name) ∧ isLowerAlnum c = true) :
    ∃ s, slugify name = some s := by
  obtain ⟨c, hc, hca⟩ := h
  have h1 : c ∈ subRuns (pyLower (pyStrip name)) :=
    (alnum_mem_subRunsAux hca false _).mpr hc
  have hcu : (c == '_') = false := by
    rw [beq_eq_false_iff_ne]
    rintro rfl; revert hca; decide
  have h2 := mem_stripUnderscores h1 hcu
  refine ⟨stripUnderscores (subRuns (pyLower (pyStrip name))), ?_⟩
  simp only [slugify]
  rw [if_neg (List.ne_nil_of_mem h2)]

theorem slugify_none_of_no_alnum {name : Str}
    (h : ∀ c ∈ pyLower (pyStrip name), isLowerAlnum c = false) :
    slugify name = none := by
  have h1 : ∀ c ∈ subRuns (pyLower (pyStrip name)), (fun c => c == '_') c = true := by
    intro c hc
    rcases mem_subRunsAux false _ c hc with h2 | ⟨h3, h4⟩
    · rw [h2]; rfl
    · rw [h _ h3] at h4; cases h4
  have h2 : (subRuns (pyLower (pyStrip name))).dropWhile (fun c => c == '_') = [] :=
    List.dropWhile_eq_nil_iff.mpr h1
  have h3 : stripUnderscores (subRuns (pyLower (pyStrip name))) = [] := by
    rw [stripUnderscores, h2]; rfl
  simp only [slugify]
  rw [if_pos h3]

theorem pyStrip_decomp (s : Str) :
    ∃ u v, s = u ++ pyStrip s ++ v ∧ (∀ c ∈ u, pyIsSpace c = true) ∧
      (∀ c ∈ v, pyIsSpace c = true) := by
  refine ⟨s.takeWhile pyIsSpace,
    ((s.dropWhile pyIsSpace).reverse.takeWhile pyIsSpace).reverse, ?_, ?_, ?_⟩
  · have h2 : s.dropWhile pyIsSpace =
        pyStrip s ++ ((s.dropWhile pyIsSpace).reverse.takeWhile pyIsSpace).reverse := by
      calc s.dropWhile pyIsSpace
          = (s.dropWhile pyIsSpace).reverse.reverse := (List.reverse_reverse _).symm
        _ = ((s.dropWhile pyIsSpace).reverse.takeWhile pyIsSpace ++
              (s.dropWhile pyIsSpace).reverse.dropWhile pyIsSpace).reverse := by
              rw [List.takeWhile_append_dropWhile]
        _ = pyStrip s ++ ((s.dropWhile pyIsSpace).reverse.takeWhile pyIsSpace).reverse := by
              rw [List.reverse_append]; rfl
    rw [List.append_assoc, ← h2, List.takeWhile_append_dropWhile]
  · intro c hc; exact List.mem_takeWhile_imp hc
  · intro c hc; exact List.mem_takeWhile_imp (List.mem_reverse.mp hc)

theorem pyLowerChar_ws {c : Char} (h : pyIsSpace c = true) : pyLowerChar c = [c] := by
  simp only [pyIsSpace, decide_eq_true_eq] at h
  rw [pyLowerChar, if_neg (by omega), if_neg (by omega), if_neg (by omega)]

theorem ws_not_alnum {c : Char} (h : pyIsSpace c = true) : isLowerAlnum c = false := by
  simp only [pyIsSpace, decide_eq_true_eq] at h
  simp only [isLowerAlnum, decide_eq_false_iff_not]
  omega

theorem alnum_of_mem_pyLower {s : Str} {c : Char} (hc : c ∈ pyLower s)
    (h : isAsciiAlnum c = true) : isLowerAlnum c = true := by
  rcases List.mem_flatMap.mp hc with ⟨d, _, hcd⟩
  rw [pyLowerChar] at hcd
  by_cases h1 : 65 ≤ d.toNat ∧ d.toNat ≤ 90
  · rw [if_pos h1, List.mem_singleton] at hcd
    subst hcd
    have ht : (Char.ofNat (d.toNat + 32)).toNat = d.toNat + 32 :=
      char_toNat_ofNat (by omega)
    simp only [isLowerAlnum, decide_eq_true_eq, ht]
    omega
  · rw [if_neg h1] at hcd
    by_cases h2 : d.toNat = 0x130
    · rw [if_pos h2] at hcd
      rcases List.mem_cons.mp hcd with rfl | hcd
      · decide
      · rw [List.mem_singleton] at hcd
        subst hcd
        exfalso
        have ht : (Char.ofNat 0x307).toNat = 0x307 := char_toNat_ofNat (by omega)
        simp only [isAsciiAlnum, isLowerAlnum, Bool.or_eq_true, decide_eq_true_eq, ht] at h
        omega
    · rw [if_neg h2] at hcd
      by_cases h3 : d.toNat = 0x212a
      · rw [if_pos h3, List.mem_singleton] at hcd
        subst hcd
        decide
      · rw [if_neg h3, List.mem_singleton] at hcd
        subst hcd
        simp only [isAsciiAlnum, Bool.or_eq_true, decide_eq_true_eq] at h
        rcases h with h | h
        · exact h
        · exact absurd h h1

theorem alnum_strip_iff (name : Str) :
    (∃ c, c ∈ pyLower (pyStrip name) ∧ isLowerAlnum c = true) ↔
    (∃ c, c ∈ pyLower name ∧ isLowerAlnum c = true) := by
  obtain ⟨u, v, hdec, hu, hv⟩ := pyStrip_decomp name
  constructor
  · rintro ⟨c, hc, hca⟩
    refine ⟨c, ?_, hca⟩
    rw [hdec]
    simp only [pyLower, List.flatMap_append]
    exact List.mem_append.mpr (Or.inl (List.mem_append.mpr (Or.inr hc)))
  · rintro ⟨c, hc, hca⟩
    refine ⟨c, ?_, hca⟩
    rw [hdec] at hc
    simp only [pyLower, List.flatMap_append] at hc
    rcases List.mem_append.mp hc with h1 | h1
    · rcases List.mem_append.mp h1 with h2 | h2
      · exfalso
        rcases List.mem_flatMap.mp h2 with ⟨d, hd, hcd⟩
        have hwd := hu d hd
        rw [pyLowerChar_ws hwd, List.mem_singleton] at hcd
        subst hcd
        rw [ws_not_alnum hwd] at hca; cases hca
      · exact h2
    · exfalso
      rcases List.mem_flatMap.mp h1 with ⟨d, hd, hcd⟩
      have hwd := hv d hd
      rw [pyLowerChar_ws hwd, List.mem_singleton] at hcd
      subst hcd
      rw [ws_not_alnum hwd] at hca; cases hca

theorem dropWhile_eq_self_of_all {p : Char → Bool} {u : Str}
    (h : ∀ c ∈ u, p c = false) : u.dropWhile p = u := by
  cases u with
  | nil => rfl
  | cons a u =>
    rw [List.dropWhile_cons, if_neg]
    simp [h a (List.mem_cons_self a u)]

theorem pyStrip_eq_self {s : Str} (h : ∀ c ∈ s, pyIsSpace c = false) : pyStrip s = s := by
  rw [pyStrip, dropWhile_eq_self_of_all h,
    dropWhile_eq_self_of_all (fun c hc => h c (List.mem_reverse.mp hc)),
    List.reverse_reverse]

theorem pyLower_eq_self {s : Str} (h : ∀ c ∈ s, pyLowerChar c = [c]) : pyLower s = s := by
  induction s with
  | nil => rfl
  | cons a t ih =>
    simp only [pyLower] at ih ⊢
    rw [List.flatMap_cons, h a (List.mem_cons_self a t),
      ih (fun c hc => h c (List.mem_cons_of_mem a hc))]
    rfl

theorem subRunsAux_id : ∀ (t : Str), (∀ c ∈ t, isLowerAlnum c = true ∨ c = '_') →
    List.Chain' sepOk t → ∀ b : Bool, (b = true → ∀ c, t.head? = some c → c ≠ '_') →
    subRunsAux b t = t := by
  intro t
  induction t with
  | nil => intro _ _ b _; cases b <;> rfl
  | cons a t ih =>
    intro hcs hch b hb
    rcases hcs a (List.mem_cons_self a t) with ha | ha
    · simp only [subRunsAux, if_pos ha]
      rw [ih (fun c hc => hcs c (List.mem_cons_of_mem a hc))
        (List.chain'_cons'.mp hch).2 false (fun h0 => absurd h0 Bool.false_ne_true)]
    · subst ha
      cases b with
      | true => exact absurd rfl (hb rfl '_' rfl)
      | false =>
        simp only [subRunsAux, if_neg (by decide : ¬(isLowerAlnum '_' = true)),
          if_neg Bool.false_ne_true]
        congr 1
        apply ih (fun c hc => hcs c (List.mem_cons_of_mem _ hc)) (List.chain'_cons'.mp hch).2 true
        intro _ c hc hceq
        subst hceq
        exact (List.chain'_cons'.mp hch).1 '_' hc ⟨rfl, rfl⟩

theorem stripUnderscores_eq_self {s : Str}
    (h1 : ∀ c, s.head? = some c → c ≠ '_') (h2 : ∀ c, s.getLast? = some c → c ≠ '_') :
    stripUnderscores s = s := by
  rw [stripUnderscores,
    dropWhile_eq_self_of_head (fun c hc => beq_eq_false_iff_ne.mpr (h1 c hc)),
    dropWhile_eq_self_of_head (fun c hc =>
      beq_eq_false_iff_ne.mpr (h2 c (by rw [List.head?_reverse] at hc; exact hc))),
    List.reverse_reverse]

/-- A well-formed slug is a fixed point of `slugify`. -/
theorem slugify_fixpoint {s : Str} (hne : s ≠ [])
    (hcs : ∀ c ∈ s, isLowerAlnum c = true ∨ c = '_')
    (hch : List.Chain' sepOk s)
    (hh : ∀ c, s.head? = some c → c ≠ '_') (hl : ∀ c, s.getLast? = some c → c ≠ '_') :
    slugify s = some s := by
  have hnws : ∀ c ∈ s, pyIsSpace c = false := by
    intro c hc
    rcases hcs c hc with h1 | h1
    · simp only [isLowerAlnum, decide_eq_true_eq] at h1
      simp only [pyIsSpace, decide_eq_false_iff_not]
      omega
    · subst h1; decide
  have hid : ∀ c ∈ s, pyLowerChar c = [c] := by
    intro c hc
    rcases hcs c hc with h1 | h1
    · simp only [isLowerAlnum, decide_eq_true_eq] at h1
      rw [pyLowerChar, if_neg (by omega), if_neg (by omega), if_neg (by omega)]
    · subst h1; decide
  have hsub : subRuns s = s := by
    rw [subRuns]
    exact subRunsAux_id s hcs hch false (fun h0 => absurd h0 Bool.false_ne_true)
  simp only [slugify, pyStrip_eq_self hnws, pyLower_eq_self hid, hsub,
    stripUnderscores_eq_self hh hl]
  rw [if_neg hne]

theorem pyLowerChar_exists_alnum {c : Char} (h : isAsciiAlnum c = true) :
    ∃ e, e ∈ pyLowerChar c ∧ isLowerAlnum e = true := by
  simp only [isAsciiAlnum, isLowerAlnum, Bool.or_eq_true, decide_eq_true_eq] at h
  by_cases h1 : 65 ≤ c.toNat ∧ c.toNat ≤ 90
  · refine ⟨Char.ofNat (c.toNat + 32), ?_, ?_⟩
    · rw [pyLowerChar, if_pos h1]
      exact List.mem_singleton.mpr rfl
    · have ht := char_toNat_ofNat (n := c.toNat + 32) (by omega)
      simp only [isLowerAlnum, decide_eq_true_eq, ht]
      omega
  · refine ⟨c, ?_, ?_⟩
    · rw [pyLowerChar, if_neg h1, if_neg (by omega), if_neg (by omega)]
      exact List.mem_singleton.mpr rfl
    · simp only [isLowerAlnum, decide_eq_true_eq]
      omega

theorem exists_alnum_of_raw {x : Str} (h : ∃ c ∈ x, isAsciiAlnum c = true) :
    ∃ c, c ∈ pyLower x ∧ isLowerAlnum c = true := by
  obtain ⟨c, hc, hca⟩ := h
  obtain ⟨e, he, hea⟩ := pyLowerChar_exists_alnum hca
  exact ⟨e, List.mem_flatMap_of_mem hc he, hea⟩

/-! ### Claim theorems: the slug normaliser -/

/-- **C1.** For every display name containing at least one ASCII alphanumeric
character after lower-casing, `slugify` returns (without raising) a non-empty
string whose characters are drawn from `[a-z0-9]` plus the single separator
`'_'`, with no leading separator, no trailing separator and no two consecutive
separators; and concretely `slugify "My Game!!" = "my_game"`. -/
theorem C1_slugify_wellformed (name : Str)
    (h : (pyLower name).any isAsciiAlnum = true) :
    (∃ s, slugify name = some s ∧ s ≠ [] ∧
      (∀ c ∈ s, isLowerAlnum c = true ∨ c = '_') ∧
      (∀ c, s.head? = some c → c ≠ '_') ∧
      (∀ c, s.getLast? = some c → c ≠ '_') ∧
      ¬ List.IsInfix ['_', '_'] s) ∧
    slugify (strLit ("My Game!!")) = some (strLit ("my_game")) := by
  constructor
  · have h1 : ∃ c, c ∈ pyLower name ∧ isLowerAlnum c = true := by
      rcases List.any_eq_true.mp h with ⟨c, hc, hca⟩
      exact ⟨c, hc, alnum_of_mem_pyLower hc hca⟩
    obtain ⟨s, hs⟩ := slugify_of_alnum ((alnum_strip_iff name).mpr h1)
    exact ⟨s, hs, slugify_wf hs⟩
  · decide

theorem C1_witness :
    (pyLower (strLit ("My Game!!"))).any isAsciiAlnum = true ∧
    ((∃ s, slugify (strLit ("My Game!!")) = some s ∧ s ≠ [] ∧
      (∀ c ∈ s, isLowerAlnum c = true ∨ c = '_') ∧
      (∀ c, s.head? = some c → c ≠ '_') ∧
      (∀ c, s.getLast? = some c → c ≠ '_') ∧
      ¬ List.IsInfix ['_', '_'] s) ∧
    slugify (strLit ("My Game!!")) = some (strLit ("my_game"))) :=
  ⟨by decide, C1_slugify_wellformed (strLit ("My Game!!")) (by decide)⟩

/-- **C7 counterexample.** The claim "slugify raises if and only if its input
contains no ASCII alphanumeric character" fails on U+212A (KELVIN SIGN): the
one-character input `"K"` contains no ASCII alphanumeric character, yet
Python lower-cases it to ASCII `"k"` and `slugify` returns `"k"` instead of
raising. -/
theorem C7_counterexample :
    (∀ c ∈ strLit ("K"), isAsciiAlnum c = false) ∧
    slugify (strLit ("K")) = some (strLit ("k")) := by decide

/-- **C7 (amended).** `slugify` raises the validation error iff the
lower-cased input contains no character of `[a-z0-9]` (for ASCII-only inputs
this coincides with the original claim, but e.g. U+212A lower-cases to ASCII
`k`); in particular it raises on `"***"` and on `"   "`.  For all other
inputs it returns normally; as a pure function of its argument it is
deterministic and has no side effects. -/
theorem C7_slugify_error_iff (name : Str) :
    (slugify name = none ↔ ∀ c ∈ pyLower name, isLowerAlnum c = false) ∧
    slugify (strLit ("***")) = none ∧ slugify (strLit ("   ")) = none := by
  refine ⟨⟨?_, ?_⟩, by decide, by decide⟩
  · intro h c hc
    by_contra hca
    rw [Bool.not_eq_false] at hca
    obtain ⟨s, hs⟩ := slugify_of_alnum ((alnum_strip_iff name).mpr ⟨c, hc, hca⟩)
    rw [h] at hs; cases hs
  · intro h
    apply slugify_none_of_no_alnum
    intro c hc
    by_contra hca
    rw [Bool.not_eq_false] at hca
    rcases (alnum_strip_iff name).mp ⟨c, hc, hca⟩ with ⟨d, hd, hda⟩
    rw [h d hd] at hda; cases hda

/-- **C9.** `slugify` is idempotent on its domain: if the input contains an
ASCII alphanumeric character then `slugify` succeeds, and applying `slugify`
to the resulting slug returns that slug unchanged. -/
theorem C9_slugify_idempotent (x : Str) (h : ∃ c ∈ x, isAsciiAlnum c = true) :
    ∃ s, slugify x = some s ∧ slugify s = some s := by
  obtain ⟨s, hs⟩ := slugify_of_alnum ((alnum_strip_iff x).mpr (exists_alnum_of_raw h))
  refine ⟨s, hs, ?_⟩
  obtain ⟨hne, hcs, hh, hl, _⟩ := slugify_wf hs
  have hchain : List.Chain' sepOk s := by
    obtain ⟨heq, _⟩ := slugify_eq_some hs
    exact heq ▸ (chain'_of_isInfix (subRunsAux_chain false _) (stripUnderscores_isInfix _))
  exact slugify_fixpoint hne hcs hchain hh hl

theorem C9_witness :
    (∃ c ∈ strLit ("Re-Run Twice 2x"), isAsciiAlnum c = true) ∧
    (∃ s, slugify (strLit ("Re-Run Twice 2x")) = some s ∧ slugify s = some s) :=
  ⟨by decide, C9_slugify_idempotent (strLit ("Re-Run Twice 2x")) (by decide)⟩

/-! ### Claim theorems: early failures of `main` -/

/-- Concrete path resolver for witnesses: one component per path string. -/
def resolveSimple : Str → DirPath := fun s => [s]

/-- **C8.** If the display name in effect (positional argument, or the
prompt answer when the argument is absent or empty) is empty after trimming,
the run fails with a fatal error — name-required, missing base directory, or
the slug `ValueError` — and the file system is left exactly as it was: no
directory is created and no file is written. -/
theorem C8_empty_name_fails (resolve : Str → DirPath) (args : Args)
    (promptName promptBase : Str) (fs : FS)
    (h : pyStrip (effectiveName args promptName) = []) :
    ∃ e, runMain resolve args promptName promptBase fs = (some e, fs) := by
  simp only [runMain]
  by_cases h0 : effectiveName args promptName = []
  · rw [if_pos h0]
    exact ⟨RunErr.nameRequired, rfl⟩
  · rw [if_neg h0]
    by_cases h1 : fs.dirExists (resolve (effectiveBase args promptBase)) = true
    · have hslug : slugify (effectiveName args promptName) = none := by
        simp only [slugify, h]
        rfl
      rw [if_neg (by rw [h1]; simp), hslug]
      exact ⟨RunErr.invalidName, rfl⟩
    · rw [if_pos (by rw [Bool.not_eq_true] at h1; rw [h1]; rfl)]
      exact ⟨RunErr.baseDirMissing _, rfl⟩

theorem C8_witness :
    pyStrip (effectiveName ⟨some (strLit ("   ")), some (strLit ("base")), false⟩
      (strLit (""))) = [] ∧
    ∃ e, runMain resolveSimple ⟨some (strLit ("   ")), some (strLit ("base")), false⟩
      (strLit ("")) (strLit ("")) ⟨[[strLit ("base")]], []⟩ =
      (some e, ⟨[[strLit ("base")]], []⟩) :=
  ⟨by decide, C8_empty_name_fails resolveSimple
    ⟨some (strLit ("   ")), some (strLit ("base")), false⟩ (strLit ("")) (strLit (""))
    ⟨[[strLit ("base")]], []⟩ (by decide)⟩

/-- **C5.** When the run reaches the directory-creation step (valid name,
existing base directory) but the project directory `base/slug` already exists
and `--force` is not set, `main` exits with the conflict error naming that
directory, and the file system is returned unchanged: no file is written, no
subdirectory is created, so the files of a previous successful run are left
untouched. -/
theorem C5_dir_conflict (resolve : Str → DirPath) (args : Args)
    (promptName promptBase : Str) (fs : FS) (slug : Str)
    (hslug : slugify (effectiveName args promptName) = some slug)
    (hbase : fs.dirExists (resolve (effectiveBase args promptBase)) = true)
    (hdir : fs.dirExists (resolve (effectiveBase args promptBase) ++ [slug]) = true)
    (hforce : args.force = false) :
    runMain resolve args promptName promptBase fs =
      (some (RunErr.dirConflict (resolve (effectiveBase args promptBase) ++ [slug])), fs) := by
  have hd : effectiveName args promptName ≠ [] := by
    intro h0
    rw [h0] at hslug
    rw [show slugify [] = none from rfl] at hslug
    cases hslug
  simp only [runMain]
  rw [if_neg hd, if_neg (by rw [hbase]; simp), hslug]
  simp [hdir, hforce]

theorem C5_witness :
    slugify (effectiveName ⟨some (strLit ("My Game!!")), some (strLit ("base")), false⟩
      (strLit (""))) = some (strLit ("my_game")) ∧
    runMain resolveSimple ⟨some (strLit ("My Game!!")), some (strLit ("base")), false⟩
      (strLit ("")) (strLit (""))
      ⟨[[strLit ("base")], [strLit ("base"), strLit ("my_game")]], []⟩ =
      (some (RunErr.dirConflict [strLit ("base"), strLit ("my_game")]),
        ⟨[[strLit ("base")], [strLit ("base"), strLit ("my_game")]], []⟩) :=
  ⟨by decide, C5_dir_conflict resolveSimple
    ⟨some (strLit ("My Game!!")), some (strLit ("base")), false⟩ (strLit ("")) (strLit (""))
    ⟨[[strLit ("base")], [strLit ("base"), strLit ("my_game")]], []⟩ (strLit ("my_game"))
    (by decide) (by decide) (by decide) rfl⟩

/-! ### File-system lemmas for the write sequence -/

def itemFile (it : WriteItem) : FSFile := ⟨it.path, it.contents, it.mkExec⟩

theorem fileExists_iff {fs : FS} {p : DirPath} :
    fs.fileExists p = true ↔ ∃ f ∈ fs.files, f.path = p := by
  simp [FS.fileExists]

theorem writeFile_not_exists {fs : FS} {p : DirPath} {c : Str}
    (h : fs.fileExists p = false) :
    fs.writeFile p c = { fs with files := fs.files ++ [⟨p, c, false⟩] } := by
  rw [FS.writeFile, if_neg (by rw [h]; exact Bool.false_ne_true)]

theorem map_update_id {l : List FSFile} {p : DirPath}
    (h : ∀ f ∈ l, f.path ≠ p) (g : FSFile → FSFile) :
    l.map (fun f => if f.path = p then g f else f) = l := by
  induction l with
  | nil => rfl
  | cons a l ih =>
    rw [List.map_cons, ih (fun f hf => h f (List.mem_cons_of_mem a hf))]
    congr 1
    exact if_neg (h a (List.mem_cons_self a l))

theorem chmod_append_single {fs : FS} {p : DirPath} {c : Str} {x : Bool}
    (h : fs.fileExists p = false) :
    FS.chmod { fs with files := fs.files ++ [⟨p, c, false⟩] } p x =
      { fs with files := fs.files ++ [⟨p, c, x⟩] } := by
  have hne : ∀ f ∈ fs.files, f.path ≠ p := by
    intro f hf hfp
    have h2 : fs.fileExists p = true := fileExists_iff.mpr ⟨f, hf, hfp⟩
    rw [h] at h2; cases h2
  simp only [FS.chmod, List.map_append]
  rw [map_update_id hne]
  simp

theorem fileExists_append_single {fs : FS} {q : DirPath} {f : FSFile} :
    FS.fileExists { fs with files := fs.files ++ [f] } q =
      (fs.fileExists q || (f.path == q)) := by
  simp [FS.fileExists]


theorem runWrites_cons_ok {force : Bool} {it : WriteItem} {rest : List WriteItem}
    {fs fs1 : FS} (h : safe_write it.path it.contents force fs = Except.ok fs1) :
    runWrites force (it :: rest) fs =
      runWrites force rest (if it.mkExec then fs1.chmod it.path true else fs1) := by
  rw [runWrites, h]

theorem runWrites_cons_error {force : Bool} {it : WriteItem} {rest : List WriteItem}
    {fs : FS} {p : DirPath} (h : safe_write it.path it.contents force fs = Except.error p) :
    runWrites force (it :: rest) fs = (some p, fs) := by
  rw [runWrites, h]

theorem runWrites_fresh (force : Bool) : ∀ (items : List WriteItem) (fs : FS),
    (∀ it ∈ items, fs.fileExists it.path = false) →
    (items.map WriteItem.path).Nodup →
    runWrites force items fs =
      (none, { fs with files := fs.files ++ items.map itemFile }) := by
  intro items
  induction items with
  | nil => intro fs _ _; simp [runWrites]
  | cons it rest ih =>
    intro fs hfresh hnd
    have hex : fs.fileExists it.path = false := hfresh it (List.mem_cons_self _ _)
    have hw : safe_write it.path it.contents force fs
        = Except.ok { fs with files := fs.files ++ [⟨it.path, it.contents, false⟩] } := by
      rw [safe_write, if_neg (by rw [hex]; simp), writeFile_not_exists hex]
    rw [runWrites_cons_ok hw]
    have hstep : (if it.mkExec = true then
        FS.chmod { fs with files := fs.files ++ [⟨it.path, it.contents, false⟩] } it.path true
        else { fs with files := fs.files ++ [⟨it.path, it.contents, false⟩] }) =
        { fs with files := fs.files ++ [itemFile it] } := by
      cases hmk : it.mkExec
      · rw [if_neg Bool.false_ne_true, itemFile, hmk]
      · rw [if_pos rfl, chmod_append_single hex, itemFile, hmk]
    rw [hstep]
    rw [ih _ ?_ (List.Nodup.of_cons hnd)]
    · simp [List.append_assoc]
    · intro it2 h2
      rw [fileExists_append_single, Bool.or_eq_false_iff]
      refine ⟨hfresh it2 (List.mem_cons_of_mem _ h2), ?_⟩
      rw [beq_eq_false_iff_ne]
      have hnotin := (List.nodup_cons.mp hnd).1
      intro heq
      exact hnotin ((show it.path = it2.path from heq) ▸ List.mem_map_of_mem WriteItem.path h2)

theorem runWrites_conflict : ∀ (items : List WriteItem) (fs : FS) (k : Nat)
    (hk : k < items.length),
    (∀ j (hj : j < items.length), j < k → fs.fileExists ((items.get ⟨j, hj⟩).path) = false) →
    fs.fileExists ((items.get ⟨k, hk⟩).path) = true →
    (items.map WriteItem.path).Nodup →
    runWrites false items fs =
      (some ((items.get ⟨k, hk⟩).path),
        { fs with files := fs.files ++ (items.take k).map itemFile }) := by
  intro items
  induction items with
  | nil => intro fs k hk; exact absurd hk (Nat.not_lt_zero k)
  | cons it rest ih =>
    intro fs k hk hbefore hconf hnd
    cases k with
    | zero =>
      rw [runWrites_cons_error (p := it.path)
        (by rw [safe_write, if_pos (by rw [show ((it :: rest).get ⟨0, hk⟩) = it from rfl] at hconf; rw [hconf]; rfl)])]
      simp
    | succ k0 =>
      have h0 : fs.fileExists it.path = false := by
        have h1 := hbefore 0 (Nat.succ_pos _) (Nat.succ_pos k0)
        exact h1
      have hw : safe_write it.path it.contents false fs
          = Except.ok { fs with files := fs.files ++ [⟨it.path, it.contents, false⟩] } := by
        rw [safe_write, if_neg (by rw [h0]; simp), writeFile_not_exists h0]
      rw [runWrites_cons_ok hw]
      have hstep : (if it.mkExec = true then
          FS.chmod { fs with files := fs.files ++ [⟨it.path, it.contents, false⟩] } it.path true
          else { fs with files := fs.files ++ [⟨it.path, it.contents, false⟩] }) =
          { fs with files := fs.files ++ [itemFile it] } := by
        cases hmk : it.mkExec
        · rw [if_neg Bool.false_ne_true, itemFile, hmk]
        · rw [if_pos rfl, chmod_append_single h0, itemFile, hmk]
      rw [hstep]
      have hlen : k0 < rest.length := Nat.lt_of_succ_lt_succ hk
      have hnotin := (List.nodup_cons.mp hnd).1
      rw [ih _ k0 hlen ?_ ?_ (List.Nodup.of_cons hnd)]
      · simp [List.append_assoc, List.get_cons_succ]
      · intro j hj hjk
        rw [fileExists_append_single, Bool.or_eq_false_iff]
        have h2 := hbefore (j + 1) (Nat.succ_lt_succ hj) (Nat.succ_lt_succ hjk)
        rw [List.get_cons_succ] at h2
        refine ⟨h2, ?_⟩
        rw [beq_eq_false_iff_ne]
        intro heq
        exact hnotin ((show it.path = (rest.get ⟨j, hj⟩).path from heq) ▸
          List.mem_map_of_mem WriteItem.path (List.get_mem rest j hj))
      · rw [fileExists_append_single]
        rw [List.get_cons_succ] at hconf
        rw [hconf]
        simp

/-! ### The write phase of `main` -/

/-- The directory work of `main` before the first write: create the project
root (reusing an existing one only under `--force`) and the `src`/`cmake`
subdirectories idempotently. -/
def dirsPhase (fs : FS) (root : DirPath) : FS :=
  ((if fs.dirExists root then fs else fs.mkdir root).mkdirIfAbsent
    (root ++ [strLit ("src")])).mkdirIfAbsent (root ++ [strLit ("cmake")])

theorem files_mkdirIfAbsent (fs : FS) (p : DirPath) : (fs.mkdirIfAbsent p).files = fs.files := by
  rw [FS.mkdirIfAbsent]
  split <;> rfl

theorem files_dirsPhase (fs : FS) (root : DirPath) : (dirsPhase fs root).files = fs.files := by
  rw [dirsPhase, files_mkdirIfAbsent, files_mkdirIfAbsent]
  split <;> rfl

theorem fileExists_congr {fs gs : FS} (h : fs.files = gs.files) (p : DirPath) :
    fs.fileExists p = gs.fileExists p := by
  rw [FS.fileExists, FS.fileExists, h]

/-- After name resolution, base-directory check, slug computation and the
project-directory check all pass, `main` is exactly the write sequence run on
the post-`mkdir` file system. -/
theorem runMain_write_phase (resolve : Str → DirPath) (args : Args)
    (promptName promptBase : Str) (fs : FS) (slug : Str)
    (hslug : slugify (effectiveName args promptName) = some slug)
    (hbase : fs.dirExists (resolve (effectiveBase args promptBase)) = true)
    (hnc : (fs.dirExists (resolve (effectiveBase args promptBase) ++ [slug]) &&
      !args.force) = false) :
    runMain resolve args promptName promptBase fs =
      (match runWrites args.force
        (renderItems (resolve (effectiveBase args promptBase) ++ [slug])
          (effectiveName args promptName) slug)
        (dirsPhase fs (resolve (effectiveBase args promptBase) ++ [slug])) with
      | (some p, fs3) => (some (RunErr.writeFailed p), fs3)
      | (none, fs3) => (none, fs3)) := by
  have hd : effectiveName args promptName ≠ [] := by
    intro h0
    rw [h0, show slugify [] = none from rfl] at hslug
    cases hslug
  simp only [runMain]
  rw [if_neg hd, if_neg (by rw [hbase]; simp), hslug]
  simp only [hnc, Bool.false_eq_true, if_false]
  rfl

/-- The relative path of the j-th write of `main`, in source order. -/
def relPath : Nat → DirPath
  | 0 => [strLit ("CMakeLists.txt")]
  | 1 => [strLit ("src"), strLit ("main.cpp")]
  | 2 => [strLit ("src"), strLit ("Application.hpp")]
  | 3 => [strLit ("src"), strLit ("Application.cpp")]
  | 4 => [strLit ("README.md")]
  | 5 => [strLit ("build.sh")]
  | 6 => [strLit ("cmake"), strLit ("patch_glad.cmake")]
  | 7 => [strLit (".gitignore")]
  | _ => [strLit (".ignore")]

def targetPath (root : DirPath) (j : Nat) : DirPath := root ++ relPath j

theorem relPath_inj : ∀ i < 9, ∀ j < 9, relPath i = relPath j → i = j := by decide

theorem targetPath_inj {root : DirPath} {i j : Nat} (hi : i < 9) (hj : j < 9)
    (h : targetPath root i = targetPath root j) : i = j :=
  relPath_inj i hi j hj ((List.append_right_inj root).mp h)

theorem renderItems_get_path (root : DirPath) (d slug : Str) (j : Nat) (hj : j < 9) :
    ((renderItems root d slug).get ⟨j, hj⟩).path = targetPath root j := by
  interval_cases j <;> rfl

theorem renderItems_paths_nodup (root : DirPath) (d slug : Str) :
    ((renderItems root d slug).map WriteItem.path).Nodup := by
  have h : (renderItems root d slug).map WriteItem.path =
      [relPath 0, relPath 1, relPath 2, relPath 3, relPath 4, relPath 5, relPath 6,
        relPath 7, relPath 8].map (fun r => root ++ r) := rfl
  rw [h]
  refine List.Nodup.map ?_ (by decide)
  intro a b hab
  exact (List.append_right_inj root).mp hab

theorem get_mem_take {α : Type} : ∀ (l : List α) (j k : Nat) (hj : j < l.length),
    j < k → l.get ⟨j, hj⟩ ∈ l.take k := by
  intro l
  induction l with
  | nil => intro j k hj _; exact absurd hj (Nat.not_lt_zero j)
  | cons a l ih =>
    intro j k hj hjk
    cases k with
    | zero => exact absurd hjk (Nat.not_lt_zero j)
    | succ k0 =>
      rw [List.take_succ_cons]
      cases j with
      | zero => exact List.mem_cons_self _ _
      | succ j0 =>
        rw [List.get_cons_succ]
        exact List.mem_cons_of_mem a
          (ih j0 k0 (Nat.lt_of_succ_lt_succ hj) (Nat.lt_of_succ_lt_succ hjk))

theorem mem_take_index {α : Type} : ∀ (l : List α) (k : Nat) (x : α),
    x ∈ l.take k → ∃ j, ∃ (hj : j < l.length), j < k ∧ l.get ⟨j, hj⟩ = x := by
  intro l
  induction l with
  | nil => intro k x hx; rw [List.take_nil] at hx; cases hx
  | cons a l ih =>
    intro k x hx
    cases k with
    | zero => rw [List.take_zero] at hx; cases hx
    | succ k0 =>
      rw [List.take_succ_cons] at hx
      rcases List.mem_cons.mp hx with rfl | hx2
      · exact ⟨0, Nat.succ_pos _, Nat.succ_pos _, rfl⟩
      · rcases ih k0 x hx2 with ⟨j, hj, hjk, hget⟩
        refine ⟨j + 1, Nat.succ_lt_succ hj, Nat.succ_lt_succ hjk, ?_⟩
        rw [List.get_cons_succ]
        exact hget

theorem fileExists_append_list {fs : FS} {q : DirPath} {l : List FSFile} :
    FS.fileExists { fs with files := fs.files ++ l } q =
      (fs.fileExists q || l.any (fun f => f.path == q)) := by
  simp [FS.fileExists]

theorem itemFile_path (it : WriteItem) : (itemFile it).path = it.path := rfl

/-- **C6.** With a valid name, an existing base directory, no `--force` and a
fresh project root, `main` attempts the nine writes in the fixed source order
`CMakeLists.txt`, `src/main.cpp`, `src/Application.hpp`, `src/Application.cpp`,
`README.md`, `build.sh`, `cmake/patch_glad.cmake`, `.gitignore`, `.ignore`
(`targetPath root 0..8`).  If the first failing write — a pre-existing target
file, which `safe_write` refuses to overwrite without `--force` — is at
position `k`, the process exits with the write error identifying exactly that
path, the files written at positions before `k` remain on disk (no rollback),
and no target at position `k` or later is written. -/
theorem C6_write_order_partial_failure (resolve : Str → DirPath) (args : Args)
    (promptName promptBase : Str) (fs : FS) (slug dname : Str) (root : DirPath)
    (hdname : dname = effectiveName args promptName)
    (hroot2 : root = resolve (effectiveBase args promptBase) ++ [slug])
    (hslug : slugify dname = some slug)
    (hbase : fs.dirExists (resolve (effectiveBase args promptBase)) = true)
    (hforce : args.force = false)
    (hroot : fs.dirExists root = false)
    (k : Nat) (hk : k < 9)
    (hbefore : ∀ j, j < k → fs.fileExists (targetPath root j) = false)
    (hconf : fs.fileExists (targetPath root k) = true) :
    ∃ fs2 : FS,
      runMain resolve args promptName promptBase fs =
        (some (RunErr.writeFailed (targetPath root k)), fs2) ∧
      fs2.files = fs.files ++ ((renderItems root dname slug).take k).map itemFile ∧
      (∀ j, j < k → fs2.fileExists (targetPath root j) = true) ∧
      (∀ j, k ≤ j → j < 9 →
        fs2.fileExists (targetPath root j) = fs.fileExists (targetPath root j)) := by
  subst hdname
  subst hroot2
  have hphase := runMain_write_phase resolve args promptName promptBase fs slug hslug hbase
    (by rw [hroot]; rfl)
  rw [hforce] at hphase
  have hkl : k < (renderItems (resolve (effectiveBase args promptBase) ++ [slug])
      (effectiveName args promptName) slug).length := hk
  have hfiles := files_dirsPhase fs (resolve (effectiveBase args promptBase) ++ [slug])
  have hbefore2 : ∀ j (hj : j < (renderItems (resolve (effectiveBase args promptBase) ++ [slug])
      (effectiveName args promptName) slug).length), j < k →
      (dirsPhase fs (resolve (effectiveBase args promptBase) ++ [slug])).fileExists
        (((renderItems (resolve (effectiveBase args promptBase) ++ [slug])
          (effectiveName args promptName) slug).get ⟨j, hj⟩).path) = false := by
    intro j hj hjk
    rw [renderItems_get_path _ _ _ j hj, fileExists_congr hfiles]
    exact hbefore j hjk
  have hconf2 : (dirsPhase fs (resolve (effectiveBase args promptBase) ++ [slug])).fileExists
      (((renderItems (resolve (effectiveBase args promptBase) ++ [slug])
        (effectiveName args promptName) slug).get ⟨k, hkl⟩).path) = true := by
    rw [renderItems_get_path _ _ _ k hkl, fileExists_congr hfiles]
    exact hconf
  have hrw := runWrites_conflict _ _ k hkl hbefore2 hconf2 (renderItems_paths_nodup _ _ _)
  rw [renderItems_get_path _ _ _ k hkl] at hrw
  refine ⟨{ dirsPhase fs (resolve (effectiveBase args promptBase) ++ [slug]) with
    files := (dirsPhase fs (resolve (effectiveBase args promptBase) ++ [slug])).files ++
      ((renderItems (resolve (effectiveBase args promptBase) ++ [slug])
        (effectiveName args promptName) slug).take k).map itemFile }, ?_, ?_, ?_, ?_⟩
  · rw [hphase, hrw]
  · show (dirsPhase fs (resolve (effectiveBase args promptBase) ++ [slug])).files ++ _ = _
    rw [hfiles]
  · intro j hjk
    have hj9 : j < (renderItems (resolve (effectiveBase args promptBase) ++ [slug])
        (effectiveName args promptName) slug).length := Nat.lt_trans hjk hk
    rw [fileExists_append_list]
    have hb : ((((renderItems (resolve (effectiveBase args promptBase) ++ [slug])
        (effectiveName args promptName) slug)).take k).map itemFile).any
        (fun f => f.path == targetPath (resolve (effectiveBase args promptBase) ++ [slug]) j)
        = true := by
      rw [List.any_eq_true]
      refine ⟨_, List.mem_map_of_mem itemFile (get_mem_take _ j k hj9 hjk), ?_⟩
      rw [itemFile_path, renderItems_get_path _ _ _ j hj9]
      exact beq_self_eq_true _
    rw [hb]
    simp
  · intro j hkj hj9
    rw [fileExists_append_list, fileExists_congr hfiles]
    have hany : ((((renderItems (resolve (effectiveBase args promptBase) ++ [slug])
        (effectiveName args promptName) slug)).take k).map itemFile).any
        (fun f => f.path == targetPath (resolve (effectiveBase args promptBase) ++ [slug]) j)
        = false := by
      rw [← Bool.not_eq_true, List.any_eq_true]
      rintro ⟨x, hx, hbeq⟩
      rcases List.mem_map.mp hx with ⟨it, hit, rfl⟩
      rcases mem_take_index _ k it hit with ⟨i, hi, hik, hgi⟩
      rw [itemFile_path, ← hgi, renderItems_get_path _ _ _ i hi] at hbeq
      have heq := eq_of_beq hbeq
      have hieq := targetPath_inj (show i < 9 from hi) hj9 heq
      omega
    rw [hany]
    simp

def args6 : Args := ⟨some (strLit ("My Game!!")), some (strLit ("base")), false⟩

def fs6 : FS :=
  ⟨[[strLit ("base")]],
   [⟨[strLit ("base"), strLit ("my_game"), strLit ("README.md")], [], false⟩]⟩

theorem C6_witness :
    ((strLit ("My Game!!") : Str) = effectiveName args6 (strLit ("")) ∧
     ([strLit ("base"), strLit ("my_game")] : DirPath) =
       resolveSimple (effectiveBase args6 (strLit (""))) ++ [strLit ("my_game")] ∧
     slugify (strLit ("My Game!!")) = some (strLit ("my_game")) ∧
     fs6.dirExists (resolveSimple (effectiveBase args6 (strLit ("")))) = true ∧
     args6.force = false ∧
     fs6.dirExists [strLit ("base"), strLit ("my_game")] = false ∧
     (4 : Nat) < 9 ∧
     (∀ j, j < 4 → fs6.fileExists (targetPath [strLit ("base"), strLit ("my_game")] j) = false) ∧
     fs6.fileExists (targetPath [strLit ("base"), strLit ("my_game")] 4) = true) ∧
    ∃ fs2 : FS,
      runMain resolveSimple args6 (strLit ("")) (strLit ("")) fs6 =
        (some (RunErr.writeFailed (targetPath [strLit ("base"), strLit ("my_game")] 4)), fs2) :=
  ⟨⟨by decide, by decide, by decide, by decide, rfl, by decide, by decide, by decide, by decide⟩,
    (C6_write_order_partial_failure resolveSimple args6 (strLit ("")) (strLit ("")) fs6
      (strLit ("my_game")) (strLit ("My Game!!")) [strLit ("base"), strLit ("my_game")]
      (by decide) (by decide) (by decide) (by decide) rfl (by decide) 4 (by decide)
      (by decide) (by decide)).elim (fun fs2 h => ⟨fs2, h.1⟩)⟩

/-- **C2 (amended).** For a run that reaches the write phase (valid name,
existing base directory, project-directory check passed) starting from a file
system holding *no files under the project root*, the run succeeds, and
afterwards exactly 9 files exist under `baseDirectory/slug` — `CMakeLists.txt`,
`src/main.cpp`, `src/Application.hpp`, `src/Application.cpp`, `README.md`,
`build.sh`, `cmake/patch_glad.cmake`, `.gitignore`, `.ignore` — of which
exactly one, `build.sh`, carries the executable permission bit.  (The original
claim, quantifying over *every* successful run, fails when `--force` reuses a
root that already holds other files; see the counterexample.) -/
theorem C2_project_layout (resolve : Str → DirPath) (args : Args)
    (promptName promptBase : Str) (fs : FS) (slug dname : Str) (root : DirPath)
    (hdname : dname = effectiveName args promptName)
    (hroot2 : root = resolve (effectiveBase args promptBase) ++ [slug])
    (hslug : slugify dname = some slug)
    (hbase : fs.dirExists (resolve (effectiveBase args promptBase)) = true)
    (hnc : (fs.dirExists root && !args.force) = false)
    (hfresh : ∀ f ∈ fs.files, root.isPrefixOf f.path = false) :
    ∃ fs2 : FS,
      runMain resolve args promptName promptBase fs = (none, fs2) ∧
      (filesUnder root fs2).map (fun f => (f.path, f.exec)) =
        [(targetPath root 0, false), (targetPath root 1, false), (targetPath root 2, false),
         (targetPath root 3, false), (targetPath root 4, false), (targetPath root 5, true),
         (targetPath root 6, false), (targetPath root 7, false), (targetPath root 8, false)] ∧
      (filesUnder root fs2).length = 9 ∧
      ((filesUnder root fs2).filter (fun f => f.exec)).map (fun f => f.path) =
        [root ++ [strLit ("build.sh")]] := by
  subst hdname
  subst hroot2
  have hphase := runMain_write_phase resolve args promptName promptBase fs slug hslug hbase hnc
  have hfiles := files_dirsPhase fs (resolve (effectiveBase args promptBase) ++ [slug])
  have hfreshItems : ∀ it ∈ renderItems (resolve (effectiveBase args promptBase) ++ [slug])
      (effectiveName args promptName) slug,
      (dirsPhase fs (resolve (effectiveBase args promptBase) ++ [slug])).fileExists it.path
        = false := by
    intro it hit
    rw [fileExists_congr hfiles, ← Bool.not_eq_true, fileExists_iff]
    rintro ⟨f, hf, hfp⟩
    rcases List.mem_iff_get.mp hit with ⟨n, hget⟩
    have hp : it.path = targetPath (resolve (effectiveBase args promptBase) ++ [slug]) n.1 := by
      rw [← hget]
      exact renderItems_get_path _ _ _ n.1 n.2
    have hpre : (resolve (effectiveBase args promptBase) ++ [slug]).isPrefixOf f.path = true := by
      rw [hfp, hp, targetPath]
      exact List.isPrefixOf_iff_prefix.mpr (List.prefix_append _ _)
    rw [hfresh f hf] at hpre
    cases hpre
  have hrw := runWrites_fresh args.force _
    (dirsPhase fs (resolve (effectiveBase args promptBase) ++ [slug])) hfreshItems
    (renderItems_paths_nodup _ _ _)
  have hall : ∀ f ∈ ((renderItems (resolve (effectiveBase args promptBase) ++ [slug])
      (effectiveName args promptName) slug)).map itemFile,
      (resolve (effectiveBase args promptBase) ++ [slug]).isPrefixOf f.path = true := by
    intro f hf
    rcases List.mem_map.mp hf with ⟨it, hit, rfl⟩
    rcases List.mem_iff_get.mp hit with ⟨n, hget⟩
    rw [itemFile_path, ← hget, renderItems_get_path _ _ _ n.1 n.2, targetPath]
    exact List.isPrefixOf_iff_prefix.mpr (List.prefix_append _ _)
  have h1 : filesUnder (resolve (effectiveBase args promptBase) ++ [slug])
      ⟨(dirsPhase fs (resolve (effectiveBase args promptBase) ++ [slug])).dirs,
        (dirsPhase fs (resolve (effectiveBase args promptBase) ++ [slug])).files ++
          ((renderItems (resolve (effectiveBase args promptBase) ++ [slug])
            (effectiveName args promptName) slug)).map itemFile⟩ =
      ((renderItems (resolve (effectiveBase args promptBase) ++ [slug])
        (effectiveName args promptName) slug)).map itemFile := by
    rw [filesUnder]
    show List.filter _ ((dirsPhase fs (resolve (effectiveBase args promptBase) ++ [slug])).files
      ++ _) = _
    rw [hfiles, List.filter_append,
      List.filter_eq_nil_iff.mpr (fun f hf => by rw [hfresh f hf]; exact Bool.false_ne_true),
      List.nil_append, List.filter_eq_self.mpr hall]
  refine ⟨⟨(dirsPhase fs (resolve (effectiveBase args promptBase) ++ [slug])).dirs,
    (dirsPhase fs (resolve (effectiveBase args promptBase) ++ [slug])).files ++
      ((renderItems (resolve (effectiveBase args promptBase) ++ [slug])
        (effectiveName args promptName) slug)).map itemFile⟩, ?_, ?_, ?_, ?_⟩
  · rw [hphase, hrw]
  · rw [h1]; rfl
  · rw [h1]; rfl
  · rw [h1]; rfl

/-- **C2 counterexample.** The claim as stated — *every* successful run leaves
exactly 9 files under the project root — is false: a `--force` run into an
existing project directory that already contains an unrelated file
(`junk.txt`) succeeds and leaves 10 files under the root. -/
theorem C2_counterexample :
    (runMain resolveSimple ⟨some (strLit ("My Game!!")), some (strLit ("base")), true⟩
      (strLit ("")) (strLit (""))
      ⟨[[strLit ("base")], [strLit ("base"), strLit ("my_game")]],
       [⟨[strLit ("base"), strLit ("my_game"), strLit ("junk.txt")], [], false⟩]⟩).1 = none ∧
    (filesUnder [strLit ("base"), strLit ("my_game")]
      (runMain resolveSimple ⟨some (strLit ("My Game!!")), some (strLit ("base")), true⟩
        (strLit ("")) (strLit (""))
        ⟨[[strLit ("base")], [strLit ("base"), strLit ("my_game")]],
         [⟨[strLit ("base"), strLit ("my_game"), strLit ("junk.txt")], [], false⟩]⟩).2).length
      = 10 := by
  constructor
  · decide
  · decide

theorem C2_witness :
    ((strLit ("My Game!!") : Str) = effectiveName args6 (strLit ("")) ∧
     ([strLit ("base"), strLit ("my_game")] : DirPath) =
       resolveSimple (effectiveBase args6 (strLit (""))) ++ [strLit ("my_game")] ∧
     slugify (strLit ("My Game!!")) = some (strLit ("my_game")) ∧
     FS.dirExists ⟨[[strLit ("base")]], []⟩
       (resolveSimple (effectiveBase args6 (strLit ("")))) = true ∧
     (FS.dirExists ⟨[[strLit ("base")]], []⟩ [strLit ("base"), strLit ("my_game")]
       && !args6.force) = false ∧
     (∀ f ∈ (⟨[[strLit ("base")]], []⟩ : FS).files,
       ([strLit ("base"), strLit ("my_game")] : DirPath).isPrefixOf f.path = false)) ∧
    ∃ fs2 : FS,
      runMain resolveSimple args6 (strLit ("")) (strLit ("")) ⟨[[strLit ("base")]], []⟩ =
        (none, fs2) ∧
      (filesUnder [strLit ("base"), strLit ("my_game")] fs2).length = 9 :=
  ⟨⟨by decide, by decide, by decide, by decide, by decide, by decide⟩,
    (C2_project_layout resolveSimple args6 (strLit ("")) (strLit (""))
      ⟨[[strLit ("base")]], []⟩ (strLit ("my_game")) (strLit ("My Game!!"))
      [strLit ("base"), strLit ("my_game")] (by decide) (by decide) (by decide) (by decide)
      (by decide) (by decide)).elim (fun fs2 h => ⟨fs2, h.1, h.2.2.1⟩)⟩

/-! ### Splicing a newline-free string into a dedented template -/

theorem splitLines_ne_nil : ∀ s : Str, splitLines s ≠ []
  | [] => by simp [splitLines]
  | c :: cs => by
    simp only [splitLines]
    by_cases h : c = '\n'
    · rw [if_pos h]; simp
    · rw [if_neg h]
      cases hs : splitLines cs with
      | nil => simp
      | cons l ls => simp

theorem splitLines_noNl : ∀ {s : Str}, '\n' ∉ s → splitLines s = [s]
  | [], _ => rfl
  | c :: cs, h => by
    have hc : ¬ c = '\n' := fun e => h (List.mem_cons.mpr (Or.inl e.symm))
    have ht : '\n' ∉ cs := fun m => h (List.mem_cons.mpr (Or.inr m))
    simp only [splitLines]
    rw [if_neg hc, splitLines_noNl ht]

/-- Concatenation of line lists where the boundary lines are merged — the
shape of `splitLines` on an append. -/
def glue : List Str → List Str → List Str
  | [], ys => ys
  | [x], [] => [x]
  | [x], y :: ys => (x ++ y) :: ys
  | x :: x2 :: xs, ys => x :: glue (x2 :: xs) ys

theorem splitLines_append : ∀ (a b : Str),
    splitLines (a ++ b) = glue (splitLines a) (splitLines b)
  | [], b => by
    cases hb : splitLines b with
    | nil => exact absurd hb (splitLines_ne_nil b)
    | cons y ys =>
      rw [List.nil_append, hb]
      rfl
  | c :: cs, b => by
    rw [List.cons_append]
    simp only [splitLines]
    rw [splitLines_append cs b]
    cases hcs : splitLines cs with
    | nil => exact absurd hcs (splitLines_ne_nil cs)
    | cons l ls =>
      by_cases hc : c = '\n'
      · rw [if_pos hc, if_pos hc]
        rfl
      · rw [if_neg hc, if_neg hc]
        cases ls with
        | nil =>
          cases hb : splitLines b with
          | nil => exact absurd hb (splitLines_ne_nil b)
          | cons y ys => rfl
        | cons m ms => rfl

theorem glue_concat : ∀ (xs : List Str) (x y : Str) (t : List Str),
    glue (xs ++ [x]) (y :: t) = xs ++ ((x ++ y) :: t) := by
  intro xs
  induction xs with
  | nil => intro x y t; rfl
  | cons a xs ih =>
    intro x y t
    cases xs with
    | nil => rfl
    | cons b bs =>
      have h1 : glue ((a :: b :: bs) ++ [x]) (y :: t)
          = a :: glue ((b :: bs) ++ [x]) (y :: t) := rfl
      rw [h1, ih]
      rfl

theorem splitLines_splice (A B s : Str) (hs : '\n' ∉ s)
    {LA0 : List Str} {lastA headB : Str} {LB0 : List Str}
    (hA : splitLines A = LA0 ++ [lastA]) (hB : splitLines B = headB :: LB0) :
    splitLines (A ++ s ++ B) = LA0 ++ ((lastA ++ s ++ headB) :: LB0) := by
  rw [splitLines_append, splitLines_append, hA, hB, splitLines_noNl hs,
    glue_concat LA0 lastA s [], glue_concat LA0 (lastA ++ s) headB LB0]

theorem all_reverse {p : Char → Bool} (l : Str) : l.reverse.all p = l.all p := by
  rw [Bool.eq_iff_iff]
  simp [List.all_eq_true]

theorem takeWhile_append_of_ne {p : Char → Bool} : ∀ {X : Str} (Y : Str),
    X.all p = false → (X ++ Y).takeWhile p = X.takeWhile p := by
  intro X
  induction X with
  | nil => intro Y h; cases h
  | cons a X ih =>
    intro Y h
    rw [List.cons_append, List.takeWhile_cons, List.takeWhile_cons]
    by_cases hp : p a = true
    · rw [if_pos hp, if_pos hp, ih Y (by simpa [hp] using h)]
    · rw [if_neg hp, if_neg hp]

theorem dropWhile_append_of_ne {p : Char → Bool} : ∀ {X : Str} (Y : Str),
    X.all p = false → (X ++ Y).dropWhile p = X.dropWhile p ++ Y := by
  intro X
  induction X with
  | nil => intro Y h; cases h
  | cons a X ih =>
    intro Y h
    rw [List.cons_append, List.dropWhile_cons, List.dropWhile_cons]
    by_cases hp : p a = true
    · rw [if_pos hp, if_pos hp, ih Y (by simpa [hp] using h)]
    · rw [if_neg hp, if_neg hp, List.cons_append]

theorem drop_append_of_le : ∀ {X : Str} {n : Nat} (Y : Str), n ≤ X.length →
    (X ++ Y).drop n = X.drop n ++ Y := by
  intro X
  induction X with
  | nil => intro n Y h; rw [Nat.le_zero.mp h]; rfl
  | cons a X ih =>
    intro n Y h
    cases n with
    | zero => rfl
    | succ n0 =>
      rw [List.cons_append, List.drop_succ_cons, List.drop_succ_cons]
      exact ih Y (Nat.le_of_succ_le_succ h)

theorem isPrefixOf_append_right {m X : Str} (Y : Str) (h : m.isPrefixOf X = true) :
    m.isPrefixOf (X ++ Y) = true := by
  rw [List.isPrefixOf_iff_prefix] at h ⊢
  exact h.trans (List.prefix_append X Y)

theorem length_le_of_isPrefixOf {m X : Str} (h : m.isPrefixOf X = true) :
    m.length ≤ X.length := by
  rw [List.isPrefixOf_iff_prefix] at h
  exact h.length_le

theorem joinLines_cons_of_ne {a : Str} {l : List Str} (h : l ≠ []) :
    joinLines (a :: l) = a ++ '\n' :: joinLines l := by
  cases l with
  | nil => exact absurd rfl h
  | cons b t => rfl

theorem joinLines_append : ∀ (xs ys : List Str), xs ≠ [] → ys ≠ [] →
    joinLines (xs ++ ys) = joinLines xs ++ '\n' :: joinLines ys
  | [], _, hx, _ => absurd rfl hx
  | [x], ys, _, hy => by
    rw [List.singleton_append, joinLines_cons_of_ne hy]
    rfl
  | x :: x2 :: xs, ys, _, hy => by
    rw [List.cons_append,
      joinLines_cons_of_ne (l := (x2 :: xs) ++ ys) (by simp),
      joinLines_append (x2 :: xs) ys (by simp) hy,
      joinLines_cons_of_ne (l := x2 :: xs) (by simp),
      List.append_assoc, List.cons_append]

theorem pyStrip_splice {C D : Str} (s : Str) (hC : C.all pyIsSpace = false)
    (hD : D.all pyIsSpace = false) :
    pyStrip (C ++ s ++ D) =
      C.dropWhile pyIsSpace ++ s ++ (D.reverse.dropWhile pyIsSpace).reverse := by
  simp only [pyStrip]
  rw [List.append_assoc C s D,
    dropWhile_append_of_ne _ hC,
    List.reverse_append (C.dropWhile pyIsSpace) (s ++ D),
    List.reverse_append s D,
    List.append_assoc D.reverse s.reverse (C.dropWhile pyIsSpace).reverse,
    dropWhile_append_of_ne _ (by rw [all_reverse]; exact hD),
    List.reverse_append, List.reverse_append,
    List.reverse_reverse, List.reverse_reverse]

/-- Generic splice theorem: when the template `A ++ s ++ B` receives a
newline-free substitution `s`, `dedent` + `strip` act only on the surrounding
literal text, so the rendered output is a literal splice of `s` between two
constants computed from `A` and `B` alone.  All hypotheses besides `hs`, `hA`,
`hB` are closed side conditions on the template, dischargeable by evaluation. -/
theorem dedentStrip_splice
    (A B s : Str) (hs : '\n' ∉ s)
    (LA0 : List Str) (lastA headB : Str) (LB0 : List Str)
    (hA : splitLines A = LA0 ++ [lastA]) (hB : splitLines B = headB :: LB0)
    (mA m : Str)
    (hlast : lastA.all isDedentWs = false)
    (hAne : (LA0.map normWsLine).map (dedentLine m) ≠ [])
    (hBne : (LB0.map normWsLine).map (dedentLine m) ≠ [])
    (hNA : (LA0.map normWsLine).foldl marginStep none = some mA)
    (hm : lcp mA (indentOf lastA) = m)
    (hNB : (LB0.map normWsLine).foldl marginStep (some m) = some m)
    (hpm : m.isPrefixOf lastA = true)
    (hC : (joinLines ((LA0.map normWsLine).map (dedentLine m))
        ++ '\n' :: lastA.drop m.length).all pyIsSpace = false)
    (hD : (headB ++ '\n' :: joinLines ((LB0.map normWsLine).map (dedentLine m))).all
        pyIsSpace = false) :
    dedentStrip (A ++ s ++ B)
      = ((joinLines ((LA0.map normWsLine).map (dedentLine m))
            ++ '\n' :: lastA.drop m.length).dropWhile pyIsSpace ++ s)
        ++ (((headB ++ '\n' :: joinLines ((LB0.map normWsLine).map
              (dedentLine m))).reverse.dropWhile pyIsSpace).reverse
            ++ strLit ("\n")) := by
  have hmidall : (lastA ++ s ++ headB).all isDedentWs = false := by
    rw [List.append_assoc, List.all_append, hlast, Bool.false_and]
  have hmidnorm : normWsLine (lastA ++ s ++ headB) = lastA ++ s ++ headB := by
    have hcond : ¬((lastA ++ s ++ headB).all isDedentWs = true
        ∧ (lastA ++ s ++ headB) ≠ []) := by
      intro hcon
      rw [hmidall] at hcon
      exact Bool.false_ne_true hcon.1
    simp only [normWsLine]
    exact if_neg hcond
  have hsplit : splitLines (A ++ s ++ B)
      = LA0 ++ ((lastA ++ s ++ headB) :: LB0) := splitLines_splice A B s hs hA hB
  have hNlist : (splitLines (A ++ s ++ B)).map normWsLine
      = LA0.map normWsLine ++ ((lastA ++ s ++ headB) :: LB0.map normWsLine) := by
    rw [hsplit, List.map_append, List.map_cons, hmidnorm]
  have hcontent : contentLine (lastA ++ s ++ headB) = true := by
    simp only [contentLine]
    rw [hmidall]
    rfl
  have hindent : indentOf (lastA ++ s ++ headB) = indentOf lastA := by
    simp only [indentOf]
    rw [List.append_assoc]
    exact takeWhile_append_of_ne _ hlast
  have hstep : marginStep (some mA) (lastA ++ s ++ headB) = some m := by
    show (if contentLine (lastA ++ s ++ headB) = true
        then some (lcp mA (indentOf (lastA ++ s ++ headB)))
        else some mA) = some m
    rw [if_pos hcontent, hindent, hm]
  have hfold : (LA0.map normWsLine
      ++ ((lastA ++ s ++ headB) :: LB0.map normWsLine)).foldl marginStep none
      = some m := by
    rw [List.foldl_append, hNA, List.foldl_cons, hstep, hNB]
  have hmargin : dedentMargin ((splitLines (A ++ s ++ B)).map normWsLine) = m := by
    simp only [dedentMargin]
    rw [hNlist, hfold]
    rfl
  have hpre : m.isPrefixOf (lastA ++ (s ++ headB)) = true :=
    isPrefixOf_append_right _ hpm
  have hmiddl : dedentLine m (lastA ++ s ++ headB)
      = lastA.drop m.length ++ (s ++ headB) := by
    simp only [dedentLine]
    rw [List.append_assoc, if_pos hpre,
      drop_append_of_le _ (length_le_of_isPrefixOf hpm)]
  have hmaplist : (LA0.map normWsLine
        ++ ((lastA ++ s ++ headB) :: LB0.map normWsLine)).map (dedentLine m)
      = (LA0.map normWsLine).map (dedentLine m)
        ++ ((lastA.drop m.length ++ (s ++ headB))
            :: (LB0.map normWsLine).map (dedentLine m)) := by
    rw [List.map_append, List.map_cons, hmiddl]
  have hjoin : joinLines ((LA0.map normWsLine).map (dedentLine m)
        ++ ((lastA.drop m.length ++ (s ++ headB))
            :: (LB0.map normWsLine).map (dedentLine m)))
      = (joinLines ((LA0.map normWsLine).map (dedentLine m))
          ++ '\n' :: lastA.drop m.length)
        ++ s ++ (headB ++ '\n' :: joinLines ((LB0.map normWsLine).map
            (dedentLine m))) := by
    rw [joinLines_append _ _ hAne (by simp), joinLines_cons_of_ne hBne]
    simp [List.append_assoc]
  have hded : dedent (A ++ s ++ B)
      = (joinLines ((LA0.map normWsLine).map (dedentLine m))
          ++ '\n' :: lastA.drop m.length)
        ++ s ++ (headB ++ '\n' :: joinLines ((LB0.map normWsLine).map
            (dedentLine m))) := by
    simp only [dedent]
    rw [hmargin, hNlist, hmaplist, hjoin]
  simp only [dedentStrip]
  rw [hded, pyStrip_splice s hC hD, List.append_assoc]

/-- For newline-free display names, `build_main_cpp` is a literal splice of the
name between two fixed strings (no escaping, no dedent interference). -/
theorem build_main_cpp_splice (name : Str) (h : '\n' ∉ name) :
    build_main_cpp name = mainCppPrefix ++ name ++ mainCppSuffix := by
  have hA : splitLines rawMainCppA
      = (splitLines rawMainCppA).dropLast
        ++ [(splitLines rawMainCppA).getLast (splitLines_ne_nil _)] :=
    (List.dropLast_concat_getLast (splitLines_ne_nil _)).symm
  have hB : splitLines rawMainCppB
      = (splitLines rawMainCppB).head (splitLines_ne_nil _)
        :: (splitLines rawMainCppB).tail :=
    (List.head_cons_tail _ (splitLines_ne_nil _)).symm
  have hmain := dedentStrip_splice rawMainCppA rawMainCppB name h
    ((splitLines rawMainCppA).dropLast)
    ((splitLines rawMainCppA).getLast (splitLines_ne_nil _))
    ((splitLines rawMainCppB).head (splitLines_ne_nil _))
    ((splitLines rawMainCppB).tail)
    hA hB (strLit ("        ")) (strLit ("        "))
    (by decide!) (by decide!) (by decide!) (by decide!) (by decide!)
    (by decide!) (by decide!) (by decide!) (by decide!)
  show dedentStrip (rawMainCppA ++ name ++ rawMainCppB) = _
  rw [hmain]
  congr 1

/-- For newline-free project names, `build_cmakelists` is a literal splice of
the name between two fixed strings. -/
theorem build_cmakelists_splice (name : Str) (h : '\n' ∉ name) :
    build_cmakelists name = cmakePrefix ++ name ++ cmakeSuffix := by
  have hA : splitLines rawCMakeA
      = (splitLines rawCMakeA).dropLast
        ++ [(splitLines rawCMakeA).getLast (splitLines_ne_nil _)] :=
    (List.dropLast_concat_getLast (splitLines_ne_nil _)).symm
  have hB : splitLines rawCMakeB
      = (splitLines rawCMakeB).head (splitLines_ne_nil _)
        :: (splitLines rawCMakeB).tail :=
    (List.head_cons_tail _ (splitLines_ne_nil _)).symm
  have hmain := dedentStrip_splice rawCMakeA rawCMakeB name h
    ((splitLines rawCMakeA).dropLast)
    ((splitLines rawCMakeA).getLast (splitLines_ne_nil _))
    ((splitLines rawCMakeB).head (splitLines_ne_nil _))
    ((splitLines rawCMakeB).tail)
    hA hB (strLit ("        ")) (strLit ("        "))
    (by decide!) (by decide!) (by decide!) (by decide!) (by decide!)
    (by decide!) (by decide!) (by decide!) (by decide!)
  have h1 : ((joinLines ((((splitLines rawCMakeA).dropLast).map normWsLine).map
        (dedentLine (strLit ("        "))))
      ++ '\n' :: ((splitLines rawCMakeA).getLast (splitLines_ne_nil _)).drop
          (strLit ("        ")).length).dropWhile pyIsSpace)
      = cmakePrefix := by decide!
  have h2 : (((((splitLines rawCMakeB).head (splitLines_ne_nil _)
        ++ '\n' :: joinLines ((((splitLines rawCMakeB).tail).map normWsLine).map
            (dedentLine (strLit ("        "))))).reverse.dropWhile
          pyIsSpace).reverse ++ strLit ("\n")))
      = cmakeSuffix := by decide!
  show dedentStrip (rawCMakeA ++ name ++ rawCMakeB) = _
  rw [hmain, h1, h2]

/-- A slug returned by `slugify` never contains a newline (its characters are
`[a-z0-9]` or the underscore). -/
theorem slug_noNl {name s : Str} (h : slugify name = some s) : '\n' ∉ s := by
  intro hmem
  rcases (slugify_wf h).2.1 '\n' hmem with hca | hcu
  · exact absurd hca (by decide)
  · exact absurd hcu (by decide)

/-- A decomposition of the constant suffix exhibits a fixed pattern as an infix
of the spliced output. -/
theorem infix_splice_right {X U V pat : Str} (W s : Str)
    (hX : X = U ++ (pat ++ V)) : pat.IsInfix (W ++ s ++ X) :=
  ⟨W ++ s ++ U, V, by rw [hX]; simp [List.append_assoc]⟩

/-- A pattern that straddles the substitution point: `pat1` ends the constant
prefix and `pat2` starts the constant suffix. -/
theorem infix_splice_mid {P X U V pat1 pat2 : Str} (s : Str)
    (hP : P = U ++ pat1) (hX : X = pat2 ++ V) :
    (pat1 ++ s ++ pat2).IsInfix (P ++ s ++ X) :=
  ⟨U, V, by rw [hP, hX]; simp [List.append_assoc]⟩

/-- C3: for every display name accepted by `slugify`, the build descriptor
rendered by `build_cmakelists` (which `main` calls on the slug) embeds exactly
the slug as the project name in `project(<slug> VERSION 0.1.0 LANGUAGES CXX)`
(and the executable target reuses it via `PROJECT_NAME`), pins the C++ standard
to 20, and pins the four third-party dependencies at fixed tags — glfw 3.4,
glm 1.0.1, glad v0.1.36, imgui v1.90.4 — independent of the display name's
content. -/
theorem C3_cmake_slug_and_pins (name s : Str) (h : slugify name = some s) :
    (strLit ("project(") ++ s
        ++ strLit (" VERSION 0.1.0 LANGUAGES CXX)")).IsInfix (build_cmakelists s)
    ∧ (strLit ("set(CMAKE_CXX_STANDARD 20)")).IsInfix (build_cmakelists s)
    ∧ (strLit ("GIT_REPOSITORY https://github.com/glfw/glfw.git\n    GIT_TAG 3.4")).IsInfix
        (build_cmakelists s)
    ∧ (strLit ("GIT_REPOSITORY https://github.com/g-truc/glm.git\n    GIT_TAG 1.0.1")).IsInfix
        (build_cmakelists s)
    ∧ (strLit ("GIT_REPOSITORY https://github.com/Dav1dde/glad.git\n    GIT_TAG v0.1.36")).IsInfix
        (build_cmakelists s)
    ∧ (strLit ("GIT_REPOSITORY https://github.com/ocornut/imgui.git\n    GIT_TAG v1.90.4")).IsInfix
        (build_cmakelists s) := by
  have heq := build_cmakelists_splice s (slug_noNl h)
  rw [heq]
  refine ⟨?_, ?_, ?_, ?_, ?_, ?_⟩
  · have hP : cmakePrefix = cmakePrefix.take 38 ++ strLit ("project(") := by decide!
    have hS : cmakeSuffix
        = strLit (" VERSION 0.1.0 LANGUAGES CXX)") ++ cmakeSuffix.drop 29 := by decide!
    exact infix_splice_mid s hP hS
  · have hp : cmakeSuffix = cmakeSuffix.take 31
        ++ (strLit ("set(CMAKE_CXX_STANDARD 20)") ++ cmakeSuffix.drop 57) := by decide!
    exact infix_splice_right cmakePrefix s hp
  · have hp : cmakeSuffix = cmakeSuffix.take 428
        ++ (strLit ("GIT_REPOSITORY https://github.com/glfw/glfw.git\n    GIT_TAG 3.4")
            ++ cmakeSuffix.drop 491) := by decide!
    exact infix_splice_right cmakePrefix s hp
  · have hp : cmakeSuffix = cmakeSuffix.take 529
        ++ (strLit ("GIT_REPOSITORY https://github.com/g-truc/glm.git\n    GIT_TAG 1.0.1")
            ++ cmakeSuffix.drop 595) := by decide!
    exact infix_splice_right cmakePrefix s hp
  · have hp : cmakeSuffix = cmakeSuffix.take 677
        ++ (strLit ("GIT_REPOSITORY https://github.com/Dav1dde/glad.git\n    GIT_TAG v0.1.36")
            ++ cmakeSuffix.drop 747) := by decide!
    exact infix_splice_right cmakePrefix s hp
  · have hp : cmakeSuffix = cmakeSuffix.take 1086
        ++ (strLit ("GIT_REPOSITORY https://github.com/ocornut/imgui.git\n    GIT_TAG v1.90.4")
            ++ cmakeSuffix.drop 1157) := by decide!
    exact infix_splice_right cmakePrefix s hp

/-- Witness for C3 at the concrete display name `"My Game!!"`, whose slug is
`"my_game"`. -/
theorem C3_witness :
    slugify (strLit ("My Game!!")) = some (strLit ("my_game"))
    ∧ ((strLit ("project(") ++ strLit ("my_game")
        ++ strLit (" VERSION 0.1.0 LANGUAGES CXX)")).IsInfix
          (build_cmakelists (strLit ("my_game")))
    ∧ (strLit ("set(CMAKE_CXX_STANDARD 20)")).IsInfix
        (build_cmakelists (strLit ("my_game")))
    ∧ (strLit ("GIT_REPOSITORY https://github.com/glfw/glfw.git\n    GIT_TAG 3.4")).IsInfix
        (build_cmakelists (strLit ("my_game")))
    ∧ (strLit ("GIT_REPOSITORY https://github.com/g-truc/glm.git\n    GIT_TAG 1.0.1")).IsInfix
        (build_cmakelists (strLit ("my_game")))
    ∧ (strLit ("GIT_REPOSITORY https://github.com/Dav1dde/glad.git\n    GIT_TAG v0.1.36")).IsInfix
        (build_cmakelists (strLit ("my_game")))
    ∧ (strLit ("GIT_REPOSITORY https://github.com/ocornut/imgui.git\n    GIT_TAG v1.90.4")).IsInfix
        (build_cmakelists (strLit ("my_game")))) :=
  ⟨by decide!, C3_cmake_slug_and_pins (strLit ("My Game!!")) (strLit ("my_game"))
    (by decide!)⟩

/-- Refuting C4 as universally stated: for the display name
`"My\n        App"` the rendered entry-point source does NOT contain
`Application app("My\n        App", 1280, 720);` — `textwrap.dedent` runs after
the f-string substitution and strips the 8-column margin from the line the
embedded newline created, mangling the window-title argument. -/
theorem C4_counterexample :
    ¬ (strLit ("Application app(\"") ++ strLit ("My\n        App")
        ++ strLit ("\", 1280, 720);")).IsInfix
      (build_main_cpp (strLit ("My\n        App"))) := by
  intro hinf
  have hb := (infixB_iff _ _).mpr hinf
  have hf : infixB (strLit ("Application app(\"") ++ strLit ("My\n        App")
      ++ strLit ("\", 1280, 720);"))
      (build_main_cpp (strLit ("My\n        App"))) = false := by decide!
  rw [hf] at hb
  exact Bool.false_ne_true hb

/-- C4 (amended): for every display name without a newline character, the
entry-point source rendered by `build_main_cpp` contains the literal display
name (not the slug) as the window-title argument of the `Application`
constructor, with the fixed window dimensions 1280 and 720. -/
theorem C4_main_cpp_title (name : Str) (h : '\n' ∉ name) :
    (strLit ("Application app(\"") ++ name
        ++ strLit ("\", 1280, 720);")).IsInfix (build_main_cpp name) := by
  rw [build_main_cpp_splice name h]
  have hP : mainCppPrefix
      = mainCppPrefix.take 118 ++ strLit ("Application app(\"") := by decide!
  have hS : mainCppSuffix
      = strLit ("\", 1280, 720);") ++ mainCppSuffix.drop 14 := by decide!
  exact infix_splice_mid name hP hS

/-- Witness for the amended C4 at the concrete display name
`"Space Blaster"`. -/
theorem C4_witness :
    '\n' ∉ strLit ("Space Blaster")
    ∧ (strLit ("Application app(\"") ++ strLit ("Space Blaster")
        ++ strLit ("\", 1280, 720);")).IsInfix
      (build_main_cpp (strLit ("Space Blaster"))) :=
  ⟨by decide, C4_main_cpp_title (strLit ("Space Blaster")) (by decide)⟩

/-- Refuting C10 as universally stated: for the display name
`"Cool\n        Game"` the rendered source does not contain the display name
character-for-character inside the quoted title argument — the dedent pass
strips the margin from the second line the name introduced. -/
theorem C10_counterexample :
    ¬ (strLit ("Application app(\"") ++ strLit ("Cool\n        Game")
        ++ strLit ("\"")).IsInfix
      (build_main_cpp (strLit ("Cool\n        Game"))) := by
  intro hinf
  have hb := (infixB_iff _ _).mpr hinf
  have hf : infixB (strLit ("Application app(\"") ++ strLit ("Cool\n        Game")
      ++ strLit ("\""))
      (build_main_cpp (strLit ("Cool\n        Game"))) = false := by decide!
  rw [hf] at hb
  exact Bool.false_ne_true hb

/-- C10 (amended): `build_main_cpp` performs no escaping — for every display
name without a newline character the rendered entry-point source is exactly a
fixed prefix, the display name verbatim, and a fixed suffix; in particular a
display name containing a double quote or a backslash appears
character-for-character inside the quoted title argument. Display names
containing a newline are mangled by the dedent pass (see the
counterexample). -/
theorem C10_main_cpp_verbatim (name : Str) (h : '\n' ∉ name) :
    build_main_cpp name = mainCppPrefix ++ name ++ mainCppSuffix :=
  build_main_cpp_splice name h

/-- Witness for the amended C10 at a display name containing a double quote
and a backslash. -/
theorem C10_witness :
    '\n' ∉ strLit ("He said \"hi\" \\")
    ∧ build_main_cpp (strLit ("He said \"hi\" \\"))
      = mainCppPrefix ++ strLit ("He said \"hi\" \\") ++ mainCppSuffix :=
  ⟨by decide, C10_main_cpp_verbatim (strLit ("He said \"hi\" \\")) (by decide)⟩
